import Mathlib

/-!
# MyRenderer: texture sampler (`MyRenderer/Sampler.cpp`)

A shallow embedding of `Sampler2D<T>::sample` and `Sampler2D<T>::sampleFromUVLevel`.

Modelling conventions.
* `float` values are exact rationals (`ℚ`): no rounding, no NaN, no infinities.
* `int` values are unbounded integers (`ℤ`); `1 << k` is `2 ^ k` and is only meaningful
  for `0 ≤ k`.
* Where the width of the machine types decides the behaviour, the definitions are repeated
  with machine arithmetic: `sampleInt32` holds the `int` values of the level selection in
  32 bits, and `uvInTexF32`, `linearAxisF32`, `filterAtF32`, `filterAtFloat` round every
  `float` operation to binary32 (`roundF32`) and convert to 32-bit `int` (`toInt32`).
* The sample type `T` is a module over the scalars, with `T{}` its zero.
* The locals `Vec2f uv;` and `T result;` of `sampleFromUVLevel` are declared without an
  initialiser.  `Sampler.h` is not part of the sources, so whatever those declarations leave
  in the variables is passed in explicitly (`uvDecl`, `resultDecl`).
* Every call of `tex.at` is recorded, in program order, next to the computed value.
-/

namespace MyRenderer

/-! ## Scalars -/

/-- Conversion `(int)x` / `int(x)` of a float: truncation toward zero. -/
def toInt (x : ℚ) : ℤ := if 0 ≤ x then ⌊x⌋ else ⌈x⌉

/-- The C library `fmod` / `fmodf`: `x - y * trunc (x / y)`, carrying the sign of `x`. -/
def fmod (x y : ℚ) : ℚ := x - y * (toInt (x / y) : ℚ)

/-- Modelled from the spec: the helper `clamp`, declared outside `Sampler.cpp`
(`CLAMP_TO_EDGE`: per axis, `clamp(u, 0, 1)`). -/
def clamp (x lo hi : ℚ) : ℚ := if x < lo then lo else if hi < x then hi else x

/-- The expression `1 << k` on `int`. -/
def shl1 (k : ℤ) : ℤ := 2 ^ k.toNat

/-! ## Data model -/

/-- The pair type `Vec2f`; the source reads its components both as `u`, `v` and as `x`, `y`. -/
structure Vec2f where
  u : ℚ
  v : ℚ
deriving DecidableEq, Repr

/-- First component under its other name. -/
abbrev Vec2f.x (p : Vec2f) : ℚ := p.u

/-- Second component under its other name. -/
abbrev Vec2f.y (p : Vec2f) : ℚ := p.v

inductive MipmapMode where
  | MIPMAP_MODE_NO_MIPMAP
  | MIPMAP_MODE_NEAREST
  | MIPMAP_MODE_LINEAR
deriving DecidableEq, Repr

inductive AddressMode where
  | ADDRESS_MODE_REPEAT
  | ADDRESS_MODE_MIRRORED_REPEAT
  | ADDRESS_MODE_CLAMP_TO_EDGE
  | ADDRESS_MODE_CLAMP_TO_BORDER
deriving DecidableEq, Repr

inductive FilterMode where
  | FILTER_MODE_POINT
  | FILTER_MODE_LINEAR
  | FILTER_MODE_ANISOTROPIC
deriving DecidableEq, Repr

open MipmapMode AddressMode FilterMode

/-- The fields of `Texture2D<T>` that the sampler reads; `at` is the texel accessor. -/
structure Texture2D (T : Type) where
  width : ℤ
  height : ℤ
  rawWidth : ℤ
  rawHeight : ℤ
  mipmapLevel : ℤ
  «at» : ℤ → ℤ → T

/-- The configuration fields of `Sampler2D<T>`. -/
structure Sampler2D (T : Type) where
  mipmapMode : MipmapMode
  addressMode : AddressMode
  filterMode : FilterMode
  borderColor : T

/-- Pixel bounds `stx, edx, sty, edy` of one mip level inside the backing storage. -/
structure Rect where
  stx : ℤ
  edx : ℤ
  sty : ℤ
  edy : ℤ
deriving DecidableEq, Repr

/-- Pixel `(x, y)` lies in the rectangle (end bounds exclusive). -/
def Rect.Contains (r : Rect) (x y : ℤ) : Prop :=
  r.stx ≤ x ∧ x < r.edx ∧ r.sty ≤ y ∧ y < r.edy

instance (r : Rect) (x y : ℤ) : Decidable (r.Contains x y) := by
  unfold Rect.Contains; infer_instance

/-- A value together with the coordinates of the `tex.at` calls that were made, in order. -/
structure Fetched (T : Type) where
  value : T
  fetches : List (ℤ × ℤ)

/-- A value together with the `(ul, vl)` arguments of the `sampleFromUVLevel` calls made. -/
structure Sampled (T : Type) where
  value : T
  calls : List (ℤ × ℤ)

/-! ## `sampleFromUVLevel` -/

/-- The `switch (addressMode)` of `sampleFromUVLevel`: the resolved `uv`, or `none` when the
function returns `borderColor` at once.  `uvDecl` is the value of `uv` after its
declaration. -/
def resolveAddress (addressMode : AddressMode) (uvDecl rawUV : Vec2f) : Option Vec2f :=
  match addressMode with
  | ADDRESS_MODE_REPEAT =>
      let uv := uvDecl
      let uv := { uv with u := if rawUV.u ≥ 0 then fmod rawUV.u 1 else fmod rawUV.u 1 + 1 }
      let uv := { uv with v := if rawUV.v ≥ 0 then fmod rawUV.v 1 else fmod rawUV.v 1 + 1 }
      some uv
  | ADDRESS_MODE_MIRRORED_REPEAT =>
      let uv := uvDecl
      let uv := { uv with u := 1 - |fmod |rawUV.u| 2 - 1| }
      let uv := { uv with u := 1 - |fmod |rawUV.v| 2 - 1| }
      some uv
  | ADDRESS_MODE_CLAMP_TO_EDGE =>
      let uv := uvDecl
      let uv := { uv with u := clamp rawUV.u 0 1 }
      let uv := { uv with v := clamp rawUV.v 0 1 }
      some uv
  | ADDRESS_MODE_CLAMP_TO_BORDER =>
      if rawUV.u > 1 ∨ rawUV.u < 0 ∨ rawUV.v > 1 ∨ rawUV.v < 0 then none
      else some rawUV

/-- The level rectangle `stx, edx, sty, edy` computed from `ul`, `vl`. -/
def levelRect {T : Type} (tex : Texture2D T) (ul vl : ℤ) : Rect :=
  if tex.mipmapLevel ≠ 0 then
    { stx := tex.rawWidth - shl1 (tex.mipmapLevel - ul + 1)
      edx := tex.rawWidth - shl1 (tex.mipmapLevel - ul)
      sty := tex.rawHeight - shl1 (tex.mipmapLevel - vl + 1)
      edy := tex.rawHeight - shl1 (tex.mipmapLevel - vl) }
  else
    { stx := 0, edx := tex.width, sty := 0, edy := tex.height }

/-- The position `uvInTex` in pixel space. -/
def uvInTex (r : Rect) (uv : Vec2f) : Vec2f :=
  { u := (r.stx : ℚ) + uv.u * ((r.edx - r.stx : ℤ) : ℚ)
    v := (r.sty : ℚ) + uv.v * ((r.edy - r.sty : ℤ) : ℚ) }

/-- One axis of the `FILTER_MODE_LINEAR` neighbour selection (the source spells it out once for
`u` and once for `v`): from the normalized coordinate `c`, the pixel-space coordinate `p` and
the bounds `st`, `ed` it yields the factor `k` and the indices `i0`, `i1`. -/
def linearAxis (addressMode : AddressMode) (c p : ℚ) (st ed : ℤ) : ℚ × ℤ × ℤ :=
  if c = 1 then
    (1, ed - 1, ed - 1)
  else if fmod p 1 < 1 / 2 then
    let k := 1 / 2 - fmod p 1
    let i1 := toInt p
    let i0 := if addressMode = ADDRESS_MODE_REPEAT ∧ i1 = st then ed - 1 else max (i1 - 1) st
    (k, i0, i1)
  else
    let k := 3 / 2 - fmod p 1
    let i0 := toInt p
    let i1 := if addressMode = ADDRESS_MODE_REPEAT ∧ i0 = ed - 1 then st else min (i0 + 1) (ed - 1)
    (k, i0, i1)

/-- The `switch (filterMode)` of `sampleFromUVLevel`, on the resolved `uv` and the level
rectangle.  `resultDecl` is the value of `result` after its declaration.  The locals `xf`, `yf`
of the `FILTER_MODE_LINEAR` case are never read and are left out. -/
def filterAt {T : Type} [AddCommMonoid T] [Module ℚ T] (s : Sampler2D T) (tex : Texture2D T)
    (resultDecl : T) (uv : Vec2f) (r : Rect) : Fetched T :=
  let p := uvInTex r uv
  match s.filterMode with
  | FILTER_MODE_POINT =>
      { value := tex.at (toInt p.x) (toInt p.y), fetches := [(toInt p.x, toInt p.y)] }
  | FILTER_MODE_LINEAR =>
      let (ku, x0, x1) := linearAxis s.addressMode uv.u p.u r.stx r.edx
      let (kv, y0, y1) := linearAxis s.addressMode uv.v p.v r.sty r.edy
      let res : T := 0
      let res := res + (ku * kv) • tex.at x0 y0
      let res := res + ((1 - ku) * kv) • tex.at x1 y0
      let res := res + (ku * (1 - kv)) • tex.at x0 y1
      let res := res + ((1 - ku) * (1 - kv)) • tex.at x1 y1
      { value := res, fetches := [(x0, y0), (x1, y0), (x0, y1), (x1, y1)] }
  | FILTER_MODE_ANISOTROPIC =>
      { value := resultDecl, fetches := [] }

/-- `Sampler2D<T>::sampleFromUVLevel(tex, rawUV, ul, vl)`. -/
def sampleFromUVLevel {T : Type} [AddCommMonoid T] [Module ℚ T] (s : Sampler2D T)
    (tex : Texture2D T) (uvDecl : Vec2f) (resultDecl : T) (rawUV : Vec2f) (ul vl : ℤ) :
    Fetched T :=
  match resolveAddress s.addressMode uvDecl rawUV with
  | none => { value := s.borderColor, fetches := [] }
  | some uv => filterAt s tex resultDecl uv (levelRect tex ul vl)

/-! ## `sample` -/

/-- The level-of-detail scalar `scale` of `sample`. -/
def lodScale {T : Type} (tex : Texture2D T) (ddxUV ddyUV : Vec2f) : ℚ :=
  (ddxUV.x * (tex.width : ℚ) + ddyUV.y * (tex.height : ℚ)) / 2

/-- The level `mip` chosen under `MIPMAP_MODE_NEAREST`. -/
def nearestMip {T : Type} (tex : Texture2D T) (ddxUV ddyUV : Vec2f) : ℤ :=
  let scale := lodScale tex ddxUV ddyUV
  let mip := if fmod scale 1 > 1 / 2 then toInt scale else toInt scale - 1
  min (max mip 0) tex.mipmapLevel

/-- The level `mip1` of `MIPMAP_MODE_LINEAR`. -/
def linearMip1 {T : Type} (tex : Texture2D T) (ddxUV ddyUV : Vec2f) : ℤ :=
  min (max (toInt (lodScale tex ddxUV ddyUV) - 1) 0) tex.mipmapLevel

/-- The level `mip2` of `MIPMAP_MODE_LINEAR`. -/
def linearMip2 {T : Type} (tex : Texture2D T) (ddxUV ddyUV : Vec2f) : ℤ :=
  min (max (toInt (lodScale tex ddxUV ddyUV)) 0) tex.mipmapLevel

/-- `Sampler2D<T>::sample(tex, uv, ddxUV, ddyUV, pipelineState)`; the pipeline state is not
read. -/
def sample {T : Type} [AddCommMonoid T] [Module ℚ T] (s : Sampler2D T) (tex : Texture2D T)
    (uvDecl : Vec2f) (resultDecl : T) (uv ddxUV ddyUV : Vec2f) : Sampled T :=
  let level := fun (ul vl : ℤ) => (sampleFromUVLevel s tex uvDecl resultDecl uv ul vl).value
  match s.mipmapMode with
  | MIPMAP_MODE_NO_MIPMAP =>
      { value := level 0 0, calls := [(0, 0)] }
  | MIPMAP_MODE_NEAREST =>
      let mip := nearestMip tex ddxUV ddyUV
      { value := level mip mip, calls := [(mip, mip)] }
  | MIPMAP_MODE_LINEAR =>
      let factor := fmod (lodScale tex ddxUV ddyUV) 1
      let mip1 := linearMip1 tex ddxUV ddyUV
      let mip2 := linearMip2 tex ddxUV ddyUV
      let result : T := 0
      let result := result + (1 - factor) • level mip1 mip1
      let result := result + factor • level mip2 mip2
      { value := result, calls := [(mip1, mip1), (mip2, mip2)] }

/-! ## `sample` with 32-bit `int`

The definitions above take `int` to be unbounded.  The level selection of `sample` converts the
float `scale` to `int`, which only holds 32 bits; the definitions below repeat `sample` with
that conversion and the subtraction `(int)scale - 1` carried out on 32-bit values. -/

/-- Conversion `(int)x` of a float to a 32-bit `int`: truncation toward zero when the truncated
value fits.  Outside that range the conversion is undefined in C++; the value taken here is the
one the x86 conversion instruction delivers, `INT_MIN`. -/
def toInt32 (x : ℚ) : ℤ :=
  if -2147483648 ≤ toInt x ∧ toInt x < 2147483648 then toInt x else -2147483648

/-- Rounding of a rational to the nearest integer, ties to the even one. -/
def roundHalfEven (q : ℚ) : ℤ :=
  if Int.fract q < 1 / 2 then ⌊q⌋
  else if 1 / 2 < Int.fract q then ⌊q⌋ + 1
  else if ⌊q⌋ % 2 = 0 then ⌊q⌋ else ⌊q⌋ + 1

/-- Rounding to binary32: for `2^e ≤ |x| < 2^(e+1)` the spacing of the float values is
`2^(e - 23)`, and `x` goes to the nearest multiple of it, ties to even. -/
def roundF32 (x : ℚ) : ℚ :=
  if x = 0 then 0
  else (roundHalfEven (x / 2 ^ (Int.log 2 |x| - 23)) : ℚ) * 2 ^ (Int.log 2 |x| - 23)

/-- The position `uvInTex` as the code computes it:
`float(stx) + uv.u * float(edx - stx)`, each operation rounded. -/
def uvInTexF32 (r : Rect) (uv : Vec2f) : Vec2f :=
  { u := roundF32 (roundF32 (r.stx : ℚ) + roundF32 (uv.u * roundF32 ((r.edx - r.stx : ℤ) : ℚ)))
    v := roundF32 (roundF32 (r.sty : ℚ) + roundF32 (uv.v * roundF32 ((r.edy - r.sty : ℤ) : ℚ))) }

/-- One axis of the `FILTER_MODE_LINEAR` neighbour selection, with the factor rounded to
binary32 and the index converted to a 32-bit `int`. -/
def linearAxisF32 (addressMode : AddressMode) (c p : ℚ) (st ed : ℤ) : ℚ × ℤ × ℤ :=
  if c = 1 then
    (1, ed - 1, ed - 1)
  else if fmod p 1 < 1 / 2 then
    let k := roundF32 (1 / 2 - fmod p 1)
    let i1 := toInt32 p
    let i0 := if addressMode = ADDRESS_MODE_REPEAT ∧ i1 = st then ed - 1 else max (i1 - 1) st
    (k, i0, i1)
  else
    let k := roundF32 (3 / 2 - fmod p 1)
    let i0 := toInt32 p
    let i1 := if addressMode = ADDRESS_MODE_REPEAT ∧ i0 = ed - 1 then st else min (i0 + 1) (ed - 1)
    (k, i0, i1)

/-- The `switch (filterMode)` of `sampleFromUVLevel` with binary32 `float` and 32-bit `int`,
on the resolved `uv` and the level rectangle. -/
def filterAtF32 {T : Type} [AddCommMonoid T] [Module ℚ T] (s : Sampler2D T) (tex : Texture2D T)
    (resultDecl : T) (uv : Vec2f) (r : Rect) : Fetched T :=
  let p := uvInTexF32 r uv
  match s.filterMode with
  | FILTER_MODE_POINT =>
      { value := tex.at (toInt32 p.x) (toInt32 p.y), fetches := [(toInt32 p.x, toInt32 p.y)] }
  | FILTER_MODE_LINEAR =>
      let (ku, x0, x1) := linearAxisF32 s.addressMode uv.u p.u r.stx r.edx
      let (kv, y0, y1) := linearAxisF32 s.addressMode uv.v p.v r.sty r.edy
      let res : T := 0
      let res := res + roundF32 (ku * kv) • tex.at x0 y0
      let res := res + roundF32 (roundF32 (1 - ku) * kv) • tex.at x1 y0
      let res := res + roundF32 (ku * roundF32 (1 - kv)) • tex.at x0 y1
      let res := res + roundF32 (roundF32 (1 - ku) * roundF32 (1 - kv)) • tex.at x1 y1
      { value := res, fetches := [(x0, y0), (x1, y0), (x0, y1), (x1, y1)] }
  | FILTER_MODE_ANISOTROPIC =>
      { value := resultDecl, fetches := [] }

/-- The filter stage with `T = float`: as `filterAtF32`, and in addition every product of a
weight with a texel and every `r += ...` of the `LINEAR` blend rounds to binary32. -/
def filterAtFloat (s : Sampler2D ℚ) (tex : Texture2D ℚ) (resultDecl : ℚ) (uv : Vec2f)
    (r : Rect) : Fetched ℚ :=
  let p := uvInTexF32 r uv
  match s.filterMode with
  | FILTER_MODE_POINT =>
      { value := tex.at (toInt32 p.x) (toInt32 p.y), fetches := [(toInt32 p.x, toInt32 p.y)] }
  | FILTER_MODE_LINEAR =>
      let (ku, x0, x1) := linearAxisF32 s.addressMode uv.u p.u r.stx r.edx
      let (kv, y0, y1) := linearAxisF32 s.addressMode uv.v p.v r.sty r.edy
      let res : ℚ := 0
      let res := roundF32 (res + roundF32 (roundF32 (ku * kv) * tex.at x0 y0))
      let res := roundF32 (res + roundF32 (roundF32 (roundF32 (1 - ku) * kv) * tex.at x1 y0))
      let res := roundF32 (res + roundF32 (roundF32 (ku * roundF32 (1 - kv)) * tex.at x0 y1))
      let res :=
        roundF32 (res + roundF32 (roundF32 (roundF32 (1 - ku) * roundF32 (1 - kv)) * tex.at x1 y1))
      { value := res, fetches := [(x0, y0), (x1, y0), (x0, y1), (x1, y1)] }
  | FILTER_MODE_ANISOTROPIC =>
      { value := resultDecl, fetches := [] }

/-! ## The specification's formulas, for comparison with the code -/

/-- The level the specification prescribes for `NEAREST`: round `scale` half-up on the floor
(`floor + 1` when the fractional part exceeds one half, `floor` otherwise), then clamp into
`[0, levelCount]`. -/
def specNearestLevel (scale : ℚ) (levelCount : ℤ) : ℤ :=
  let r := if Int.fract scale > 1 / 2 then ⌊scale⌋ + 1 else ⌊scale⌋
  min (max r 0) levelCount

/-- The specification's `MIRRORED_REPEAT`: each axis resolved from its own input,
`1 - |(|c| mod 2) - 1|`. -/
def specMirroredRepeat (rawUV : Vec2f) : Vec2f :=
  { u := 1 - |fmod |rawUV.u| 2 - 1|, v := 1 - |fmod |rawUV.v| 2 - 1| }

/-- The blend the specification prescribes on the left half of a texel (`f < 0.5`): weight
`0.5 - f` on the value at the upper neighbour `floor(p)`, the remaining `0.5 + f` on the value at
the lower neighbour. -/
def specLeftHalfBlend (f lowerValue upperValue : ℚ) : ℚ :=
  (1 / 2 - f) * upperValue + (1 / 2 + f) * lowerValue

/-! ## Concrete textures and samplers used in the examples -/

/-- A packed pyramid with `mipmapLevel = 2` in an 8x8 storage; the texel at `(x, y)` holds
`x + 10 * y`, so distinct texels hold distinct values. -/
def pyramidTex : Texture2D ℚ :=
  { width := 4, height := 4, rawWidth := 8, rawHeight := 8, mipmapLevel := 2,
    «at» := fun x y => (x : ℚ) + 10 * (y : ℚ) }

/-- A single-level 4x4 texture (`mipmapLevel = 0`); the texel at `(x, y)` holds `x + 10 * y`. -/
def flatTex : Texture2D ℚ :=
  { width := 4, height := 4, rawWidth := 4, rawHeight := 4, mipmapLevel := 0,
    «at» := fun x y => (x : ℚ) + 10 * (y : ℚ) }

/-- A sampler with the given modes and border value `-1`. -/
def mkSampler (m : MipmapMode) (a : AddressMode) (f : FilterMode) : Sampler2D ℚ :=
  { mipmapMode := m, addressMode := a, filterMode := f, borderColor := -1 }

/-- Derivative pair giving `scale = 2.3` on `pyramidTex`: `ddxUV`. -/
def lodDerivX : Vec2f := ⟨23 / 40, 0⟩

/-- Derivative pair giving `scale = 2.3` on `pyramidTex`: `ddyUV`. -/
def lodDerivY : Vec2f := ⟨0, 23 / 40⟩

/-- Derivative giving `scale = 2.7` on `pyramidTex` when used for both `ddxUV` and `ddyUV`. -/
def lodDerivHigh : Vec2f := ⟨27 / 40, 27 / 40⟩

/-- A non-square packed texture: level 0 is 8x4, `mipmapLevel = 2`, storage 16x8; the texel at
`(x, y)` holds `x + 100 * y`. -/
def wideTex : Texture2D ℚ :=
  { width := 8, height := 4, rawWidth := 16, rawHeight := 8, mipmapLevel := 2,
    «at» := fun x y => (x : ℚ) + 100 * (y : ℚ) }

/-- A single-level 4x4 texture (`mipmapLevel = 0`) whose texels all hold 1. -/
def unitTex : Texture2D ℚ :=
  { width := 4, height := 4, rawWidth := 4, rawHeight := 4, mipmapLevel := 0,
    «at» := fun _ _ => 1 }

/-! ## Basic facts about the scalar helpers -/

theorem toInt_of_nonneg {x : ℚ} (h : 0 ≤ x) : toInt x = ⌊x⌋ := by
  simp [toInt, h]

theorem toInt_intCast (n : ℤ) : toInt (n : ℚ) = n := by
  unfold toInt
  split
  · exact Int.floor_intCast n
  · exact Int.ceil_intCast n

theorem fmod_one_of_nonneg {x : ℚ} (h : 0 ≤ x) : fmod x 1 = Int.fract x := by
  unfold fmod
  rw [div_one, one_mul, toInt_of_nonneg h]
  exact Int.self_sub_floor x

theorem fmod_one_intCast (n : ℤ) : fmod (n : ℚ) 1 = 0 := by
  simp [fmod, toInt_intCast]

theorem lodScale_low : lodScale pyramidTex lodDerivX lodDerivY = 23 / 10 := by
  norm_num [lodScale, pyramidTex, lodDerivX, lodDerivY, Vec2f.x, Vec2f.y]

theorem nearestMip_low : nearestMip pyramidTex lodDerivX lodDerivY = 1 := by
  have h1 : toInt (23 / 10) = 2 := by norm_num [toInt, Int.floor_eq_iff]
  have h2 : fmod (23 / 10) 1 = 3 / 10 := by norm_num [fmod, h1]
  simp only [nearestMip, lodScale_low, h1, h2]
  norm_num [pyramidTex]

theorem floor_low : ⌊(23 / 10 : ℚ)⌋ = 2 := by
  norm_num [Int.floor_eq_iff]

/-- Under `MIPMAP_MODE_NEAREST`, `sample` is one call of `sampleFromUVLevel` at `nearestMip`. -/
theorem sample_nearest_unfold {T : Type} [AddCommMonoid T] [Module ℚ T] (s : Sampler2D T)
    (tex : Texture2D T) (uvDecl : Vec2f) (resultDecl : T) (uv ddxUV ddyUV : Vec2f)
    (hmode : s.mipmapMode = MIPMAP_MODE_NEAREST) :
    sample s tex uvDecl resultDecl uv ddxUV ddyUV =
      { value := (sampleFromUVLevel s tex uvDecl resultDecl uv (nearestMip tex ddxUV ddyUV)
          (nearestMip tex ddxUV ddyUV)).value,
        calls := [(nearestMip tex ddxUV ddyUV, nearestMip tex ddxUV ddyUV)] } := by
  simp only [sample, hmode]

/-! ## C1: level selection under `MIPMAP_MODE_NEAREST` -/

/-- C1, counterexample.  On `pyramidTex` (`levelCount = 2`) with derivatives giving
`scale = 2.3 ≥ 0`, the specification's rounding selects level 2, while `sample` calls
`sampleFromUVLevel` with level 1 and returns the level-1 texel (44), not the level-2 texel
(66). -/
theorem sample_nearest_round_half_up_counterexample :
    0 ≤ lodScale pyramidTex lodDerivX lodDerivY ∧
    lodScale pyramidTex lodDerivX lodDerivY = 23 / 10 ∧
    2 ≤ pyramidTex.mipmapLevel ∧
    specNearestLevel (lodScale pyramidTex lodDerivX lodDerivY) pyramidTex.mipmapLevel = 2 ∧
    (sample (mkSampler MIPMAP_MODE_NEAREST ADDRESS_MODE_CLAMP_TO_BORDER FILTER_MODE_POINT)
      pyramidTex ⟨0, 0⟩ 0 ⟨0, 0⟩ lodDerivX lodDerivY).calls = [(1, 1)] ∧
    (sample (mkSampler MIPMAP_MODE_NEAREST ADDRESS_MODE_CLAMP_TO_BORDER FILTER_MODE_POINT)
      pyramidTex ⟨0, 0⟩ 0 ⟨0, 0⟩ lodDerivX lodDerivY).value = 44 ∧
    (sampleFromUVLevel (mkSampler MIPMAP_MODE_NEAREST ADDRESS_MODE_CLAMP_TO_BORDER FILTER_MODE_POINT)
      pyramidTex ⟨0, 0⟩ 0 ⟨0, 0⟩ 2 2).value = 66 := by
  refine ⟨?_, lodScale_low, by decide, ?_, ?_, ?_, ?_⟩
  · rw [lodScale_low]; norm_num
  · rw [lodScale_low]
    have h2 : Int.fract (23 / 10 : ℚ) = 3 / 10 := by norm_num [Int.fract, floor_low]
    simp only [specNearestLevel, floor_low, h2]
    norm_num [pyramidTex]
  · simp only [sample, mkSampler, nearestMip_low]
  · simp only [sample, mkSampler, nearestMip_low]
    simp [sampleFromUVLevel, resolveAddress, clamp, filterAt, levelRect, uvInTex, pyramidTex,
      shl1, toInt, Vec2f.x, Vec2f.y]
    norm_num
  · simp [mkSampler, sampleFromUVLevel, resolveAddress, clamp, filterAt, levelRect, uvInTex,
      pyramidTex, shl1, toInt, Vec2f.x, Vec2f.y]
    norm_num

/-- C1, amended.  Under `MIPMAP_MODE_NEAREST` with `scale ≥ 0`, `sample` makes exactly one call
of `sampleFromUVLevel`, at level `m = clamp(r, 0, levelCount)` where `r = floor(scale)` if
`fractional(scale) > 0.5` and `r = floor(scale) - 1` otherwise, and returns that call's value;
in particular `scale = 2.3` on a texture with `levelCount ≥ 1` samples level 1. -/
theorem sample_nearest_level {T : Type} [AddCommMonoid T] [Module ℚ T] (s : Sampler2D T)
    (tex : Texture2D T) (uvDecl : Vec2f) (resultDecl : T) (uv ddxUV ddyUV : Vec2f) (m : ℤ)
    (hmode : s.mipmapMode = MIPMAP_MODE_NEAREST)
    (hscale : 0 ≤ lodScale tex ddxUV ddyUV)
    (hm : m = min (max (if Int.fract (lodScale tex ddxUV ddyUV) > 1 / 2
      then ⌊lodScale tex ddxUV ddyUV⌋ else ⌊lodScale tex ddxUV ddyUV⌋ - 1) 0) tex.mipmapLevel) :
    sample s tex uvDecl resultDecl uv ddxUV ddyUV =
      { value := (sampleFromUVLevel s tex uvDecl resultDecl uv m m).value, calls := [(m, m)] } ∧
    (lodScale tex ddxUV ddyUV = 23 / 10 → 1 ≤ tex.mipmapLevel → m = 1) := by
  have hcode : nearestMip tex ddxUV ddyUV = m := by
    rw [hm]
    simp only [nearestMip, fmod_one_of_nonneg hscale, toInt_of_nonneg hscale]
  refine ⟨?_, ?_⟩
  · rw [sample_nearest_unfold s tex uvDecl resultDecl uv ddxUV ddyUV hmode, hcode]
  · intro h23 hN
    rw [hm, h23]
    have h2 : Int.fract (23 / 10 : ℚ) = 3 / 10 := by norm_num [Int.fract, floor_low]
    rw [h2, floor_low]
    norm_num
    exact hN

/-- C1, amended, witness: `scale = 2.3` on `pyramidTex` (`levelCount = 2`) samples level 1. -/
theorem sample_nearest_level_witness :
    (0 ≤ lodScale pyramidTex lodDerivX lodDerivY) ∧
    (sample (mkSampler MIPMAP_MODE_NEAREST ADDRESS_MODE_CLAMP_TO_BORDER FILTER_MODE_POINT)
        pyramidTex ⟨0, 0⟩ 0 ⟨0, 0⟩ lodDerivX lodDerivY =
      { value := (sampleFromUVLevel
          (mkSampler MIPMAP_MODE_NEAREST ADDRESS_MODE_CLAMP_TO_BORDER FILTER_MODE_POINT)
          pyramidTex ⟨0, 0⟩ 0 ⟨0, 0⟩ 1 1).value, calls := [(1, 1)] } ∧
    (lodScale pyramidTex lodDerivX lodDerivY = 23 / 10 → 1 ≤ pyramidTex.mipmapLevel →
      (1 : ℤ) = 1)) :=
  ⟨by rw [lodScale_low]; norm_num,
   sample_nearest_level
    (mkSampler MIPMAP_MODE_NEAREST ADDRESS_MODE_CLAMP_TO_BORDER FILTER_MODE_POINT)
    pyramidTex ⟨0, 0⟩ 0 ⟨0, 0⟩ lodDerivX lodDerivY 1 rfl
    (by rw [lodScale_low]; norm_num)
    (by
      rw [lodScale_low]
      have h2 : Int.fract (23 / 10 : ℚ) = 3 / 10 := by norm_num [Int.fract, floor_low]
      rw [h2, floor_low]
      norm_num [pyramidTex])⟩

/-! ## C2, C3: `ADDRESS_MODE_REPEAT` -/

/-- C2, the code at the failing input.  Under `ADDRESS_MODE_REPEAT` the raw coordinate `-1`
resolves to exactly `1` on both axes, outside `[0, 1)`; with `FILTER_MODE_LINEAR` on the 4x4
single-level texture the `uv.u == 1.0f` / `uv.v == 1.0f` branches are then taken: all four
fetches go to the last texel `(3, 3)` and no wrap-around blend happens. -/
theorem repeat_resolves_minus_one_to_one (uvDecl : Vec2f) :
    resolveAddress ADDRESS_MODE_REPEAT uvDecl ⟨-1, -1⟩ = some ⟨1, 1⟩ ∧
    linearAxis ADDRESS_MODE_REPEAT 1 4 0 4 = (1, 3, 3) ∧
    sampleFromUVLevel (mkSampler MIPMAP_MODE_NO_MIPMAP ADDRESS_MODE_REPEAT FILTER_MODE_LINEAR)
        flatTex uvDecl 0 ⟨-1, -1⟩ 0 0 =
      { value := 33, fetches := [(3, 3), (3, 3), (3, 3), (3, 3)] } := by
  have h : fmod (-1) 1 = 0 := by simpa using fmod_one_intCast (-1)
  refine ⟨?_, ?_, ?_⟩
  · simp [resolveAddress, h]
  · simp [linearAxis]
  · simp [sampleFromUVLevel, mkSampler, resolveAddress, h, filterAt, linearAxis, levelRect,
      flatTex, uvInTex]
    norm_num

/-- C3, the code at the failing input.  Under `ADDRESS_MODE_REPEAT` the coordinates `-1` and
`-1 + 1` (shift by the integer `k = 1`) resolve to `1` and `0`: the two results differ. -/
theorem repeat_not_periodic_at_minus_one (uvDecl : Vec2f) :
    resolveAddress ADDRESS_MODE_REPEAT uvDecl ⟨-1, 0⟩ = some ⟨1, 0⟩ ∧
    resolveAddress ADDRESS_MODE_REPEAT uvDecl ⟨-1 + ((1 : ℤ) : ℚ), 0⟩ = some ⟨0, 0⟩ ∧
    resolveAddress ADDRESS_MODE_REPEAT uvDecl ⟨-1, 0⟩ ≠
      resolveAddress ADDRESS_MODE_REPEAT uvDecl ⟨-1 + ((1 : ℤ) : ℚ), 0⟩ := by
  have h : fmod (-1) 1 = 0 := by simpa using fmod_one_intCast (-1)
  have h0 : fmod 0 1 = 0 := by simpa using fmod_one_intCast 0
  have e1 : resolveAddress ADDRESS_MODE_REPEAT uvDecl ⟨-1, 0⟩ = some ⟨1, 0⟩ := by
    simp [resolveAddress, h, h0]
  have e2 : resolveAddress ADDRESS_MODE_REPEAT uvDecl ⟨-1 + ((1 : ℤ) : ℚ), 0⟩ = some ⟨0, 0⟩ := by
    simp [resolveAddress, h0]
  refine ⟨e1, e2, ?_⟩
  rw [e1, e2]
  simp

/-! ## C4, C5: `ADDRESS_MODE_MIRRORED_REPEAT` -/

/-- C4, the code at the failing input.  Under `ADDRESS_MODE_MIRRORED_REPEAT` with
`rawUV = (0.25, 0.75)` the specification resolves to `(0.25, 0.75)`; the code assigns `uv.u`
twice, so the resolved `u` is `0.75` (computed from `rawUV.v`) and `uv.v` keeps whatever its
declaration left in it. -/
theorem mirrored_repeat_crosses_axes (uvDecl : Vec2f) :
    specMirroredRepeat ⟨1 / 4, 3 / 4⟩ = ⟨1 / 4, 3 / 4⟩ ∧
    resolveAddress ADDRESS_MODE_MIRRORED_REPEAT uvDecl ⟨1 / 4, 3 / 4⟩ = some ⟨3 / 4, uvDecl.v⟩ := by
  have t1 : toInt (1 / 4 / 2 : ℚ) = 0 := by norm_num [toInt, Int.floor_eq_iff]
  have t3 : toInt (3 / 4 / 2 : ℚ) = 0 := by norm_num [toInt, Int.floor_eq_iff]
  have a1 : |(1 / 4 : ℚ)| = 1 / 4 := abs_of_nonneg (by norm_num)
  have a3 : |(3 / 4 : ℚ)| = 3 / 4 := abs_of_nonneg (by norm_num)
  have h1 : fmod |(1 / 4 : ℚ)| 2 = 1 / 4 := by rw [a1]; unfold fmod; rw [t1]; norm_num
  have h3 : fmod |(3 / 4 : ℚ)| 2 = 3 / 4 := by rw [a3]; unfold fmod; rw [t3]; norm_num
  have b1 : |(1 / 4 : ℚ) - 1| = 3 / 4 := by rw [abs_of_nonpos (by norm_num)]; norm_num
  have b3 : |(3 / 4 : ℚ) - 1| = 1 / 4 := by rw [abs_of_nonpos (by norm_num)]; norm_num
  refine ⟨?_, ?_⟩
  · simp only [specMirroredRepeat, h1, h3, b1, b3]
    norm_num
  · simp only [resolveAddress, h1, h3, b1, b3]
    norm_num

/-- C6.  Under `ADDRESS_MODE_CLAMP_TO_BORDER`, for every texture, level and filter mode: a
`rawUV` with a component below 0 or above 1 makes `sampleFromUVLevel` return exactly
`borderColor` with no call of `tex.at`; a `rawUV` with both components in `[0, 1]` is the
resolved coordinate itself, handed unchanged to the filter stage. -/
theorem clamp_to_border_behaviour {T : Type} [AddCommMonoid T] [Module ℚ T] (s : Sampler2D T)
    (tex : Texture2D T) (uvDecl : Vec2f) (resultDecl : T) (rawUV : Vec2f) (ul vl : ℤ)
    (haddr : s.addressMode = ADDRESS_MODE_CLAMP_TO_BORDER) :
    ((rawUV.u < 0 ∨ 1 < rawUV.u ∨ rawUV.v < 0 ∨ 1 < rawUV.v) →
      sampleFromUVLevel s tex uvDecl resultDecl rawUV ul vl =
        { value := s.borderColor, fetches := [] }) ∧
    ((0 ≤ rawUV.u ∧ rawUV.u ≤ 1 ∧ 0 ≤ rawUV.v ∧ rawUV.v ≤ 1) →
      resolveAddress s.addressMode uvDecl rawUV = some rawUV ∧
      sampleFromUVLevel s tex uvDecl resultDecl rawUV ul vl =
        filterAt s tex resultDecl rawUV (levelRect tex ul vl)) := by
  constructor
  · intro h
    have hc : rawUV.u > 1 ∨ rawUV.u < 0 ∨ rawUV.v > 1 ∨ rawUV.v < 0 := by
      rcases h with h | h | h | h
      · exact Or.inr (Or.inl h)
      · exact Or.inl h
      · exact Or.inr (Or.inr (Or.inr h))
      · exact Or.inr (Or.inr (Or.inl h))
    simp only [sampleFromUVLevel, haddr, resolveAddress, if_pos hc]
  · rintro ⟨h1, h2, h3, h4⟩
    have hc : ¬ (rawUV.u > 1 ∨ rawUV.u < 0 ∨ rawUV.v > 1 ∨ rawUV.v < 0) := by
      rintro (h | h | h | h)
      · exact absurd h (not_lt.mpr h2)
      · exact absurd h (not_lt.mpr h1)
      · exact absurd h (not_lt.mpr h4)
      · exact absurd h (not_lt.mpr h3)
    simp only [sampleFromUVLevel, haddr, resolveAddress, if_neg hc, and_self]

/-- C6, witness: with `CLAMP_TO_BORDER` and `rawUV = (2, 0.5)` the result on `pyramidTex` is
the border value `-1` and nothing is fetched; `rawUV = (0.5, 1)` is passed through. -/
theorem clamp_to_border_behaviour_witness :
    (sampleFromUVLevel
        (mkSampler MIPMAP_MODE_NO_MIPMAP ADDRESS_MODE_CLAMP_TO_BORDER FILTER_MODE_LINEAR)
        pyramidTex ⟨0, 0⟩ 0 ⟨2, 1 / 2⟩ 1 1 = { value := -1, fetches := [] }) ∧
    (resolveAddress ADDRESS_MODE_CLAMP_TO_BORDER ⟨0, 0⟩ ⟨1 / 2, 1⟩ = some ⟨1 / 2, 1⟩) :=
  ⟨(clamp_to_border_behaviour
      (mkSampler MIPMAP_MODE_NO_MIPMAP ADDRESS_MODE_CLAMP_TO_BORDER FILTER_MODE_LINEAR)
      pyramidTex ⟨0, 0⟩ 0 ⟨2, 1 / 2⟩ 1 1 rfl).1 (Or.inr (Or.inl (by norm_num))),
   ((clamp_to_border_behaviour
      (mkSampler MIPMAP_MODE_NO_MIPMAP ADDRESS_MODE_CLAMP_TO_BORDER FILTER_MODE_LINEAR)
      pyramidTex ⟨0, 0⟩ 0 ⟨1 / 2, 1⟩ 1 1 rfl).2
        ⟨by norm_num, by norm_num, by norm_num, by norm_num⟩).1⟩


/-! ## Facts about `1 << k` and about clamping the level -/

theorem shl1_pos (k : ℤ) : 0 < shl1 k := by
  unfold shl1; positivity

theorem shl1_mono {a b : ℤ} (h : a ≤ b) : shl1 a ≤ shl1 b := by
  unfold shl1
  exact pow_le_pow_right₀ (by norm_num) (Int.toNat_le_toNat h)

theorem shl1_succ {k : ℤ} (h : 0 ≤ k) : shl1 (k + 1) = 2 * shl1 k := by
  unfold shl1
  rw [Int.toNat_add h (by norm_num)]
  simp [pow_succ]
  ring

/-- C8.  For a texture with `levelCount ≥ 0`, in every mipmap mode and for every derivative
pair, `sample` makes at least one call of `sampleFromUVLevel`, each level index it passes lies
in `[0, levelCount]`, and so the shift counts `levelCount - L` and `levelCount - L + 1` of the
level rectangle are non-negative. -/
theorem sample_levels_in_range {T : Type} [AddCommMonoid T] [Module ℚ T] (s : Sampler2D T)
    (tex : Texture2D T) (uvDecl : Vec2f) (resultDecl : T) (uv ddxUV ddyUV : Vec2f)
    (hN : 0 ≤ tex.mipmapLevel) :
    (sample s tex uvDecl resultDecl uv ddxUV ddyUV).calls ≠ [] ∧
    ∀ c ∈ (sample s tex uvDecl resultDecl uv ddxUV ddyUV).calls,
      (0 ≤ c.1 ∧ c.1 ≤ tex.mipmapLevel ∧ 0 ≤ c.2 ∧ c.2 ≤ tex.mipmapLevel) ∧
      (0 ≤ tex.mipmapLevel - c.1 ∧ 0 ≤ tex.mipmapLevel - c.1 + 1 ∧
        0 ≤ tex.mipmapLevel - c.2 ∧ 0 ≤ tex.mipmapLevel - c.2 + 1) := by
  have key : ∀ a : ℤ, 0 ≤ min (max a 0) tex.mipmapLevel ∧
      min (max a 0) tex.mipmapLevel ≤ tex.mipmapLevel := fun a =>
    ⟨le_min (le_max_right a 0) hN, min_le_right _ _⟩
  cases hm : s.mipmapMode
  · simp only [sample, hm]
    refine ⟨by simp, ?_⟩
    intro c hc
    simp only [List.mem_singleton] at hc
    subst hc
    simp only
    omega
  · simp only [sample, hm]
    refine ⟨by simp, ?_⟩
    intro c hc
    simp only [List.mem_singleton] at hc
    subst hc
    have := key (if fmod (lodScale tex ddxUV ddyUV) 1 > 1 / 2 then toInt (lodScale tex ddxUV ddyUV)
      else toInt (lodScale tex ddxUV ddyUV) - 1)
    simp only [nearestMip]
    omega
  · simp only [sample, hm]
    refine ⟨by simp, ?_⟩
    intro c hc
    simp only [List.mem_cons, List.mem_singleton, List.not_mem_nil, or_false] at hc
    have k1 := key (toInt (lodScale tex ddxUV ddyUV) - 1)
    have k2 := key (toInt (lodScale tex ddxUV ddyUV))
    rcases hc with hc | hc <;> subst hc <;> simp only [linearMip1, linearMip2] <;> omega

/-- C8, witness: the calls made on `pyramidTex` at `scale = 2.7` under `MIPMAP_MODE_LINEAR`. -/
theorem sample_levels_in_range_witness :
    0 ≤ pyramidTex.mipmapLevel ∧
    ∀ c ∈ (sample (mkSampler MIPMAP_MODE_LINEAR ADDRESS_MODE_CLAMP_TO_EDGE FILTER_MODE_POINT)
        pyramidTex ⟨0, 0⟩ 0 ⟨0, 0⟩ lodDerivHigh lodDerivHigh).calls,
      (0 ≤ c.1 ∧ c.1 ≤ pyramidTex.mipmapLevel ∧ 0 ≤ c.2 ∧ c.2 ≤ pyramidTex.mipmapLevel) ∧
      (0 ≤ pyramidTex.mipmapLevel - c.1 ∧ 0 ≤ pyramidTex.mipmapLevel - c.1 + 1 ∧
        0 ≤ pyramidTex.mipmapLevel - c.2 ∧ 0 ≤ pyramidTex.mipmapLevel - c.2 + 1) :=
  ⟨by decide,
   (sample_levels_in_range
    (mkSampler MIPMAP_MODE_LINEAR ADDRESS_MODE_CLAMP_TO_EDGE FILTER_MODE_POINT)
    pyramidTex ⟨0, 0⟩ 0 ⟨0, 0⟩ lodDerivHigh lodDerivHigh (by decide)).2⟩

/-! ## C9, C10: the level rectangle -/

/-- C9.  The level rectangle is `(0, width, 0, height)` when `levelCount = 0`; otherwise, with
`N = levelCount` and level indices not above `N`, `stx = rawWidth - 2^(N - ul + 1)`,
`edx = rawWidth - 2^(N - ul)`, `sty = rawHeight - 2^(N - vl + 1)`, `edy = rawHeight - 2^(N - vl)`,
and for `0 ≤ L ≤ N` the extent `end - start` on an axis is `2^(N - L)`, half the extent the
formula gives for index `L - 1`. -/
theorem levelRect_formula {T : Type} (tex : Texture2D T) (ul vl : ℤ) :
    (tex.mipmapLevel = 0 →
      levelRect tex ul vl = { stx := 0, edx := tex.width, sty := 0, edy := tex.height }) ∧
    (tex.mipmapLevel ≠ 0 → ul ≤ tex.mipmapLevel → vl ≤ tex.mipmapLevel →
      levelRect tex ul vl =
        { stx := tex.rawWidth - 2 ^ (tex.mipmapLevel - ul + 1).toNat
          edx := tex.rawWidth - 2 ^ (tex.mipmapLevel - ul).toNat
          sty := tex.rawHeight - 2 ^ (tex.mipmapLevel - vl + 1).toNat
          edy := tex.rawHeight - 2 ^ (tex.mipmapLevel - vl).toNat }) ∧
    (tex.mipmapLevel ≠ 0 → 0 ≤ ul → ul ≤ tex.mipmapLevel →
      (levelRect tex ul vl).edx - (levelRect tex ul vl).stx = 2 ^ (tex.mipmapLevel - ul).toNat ∧
      2 * ((levelRect tex ul vl).edx - (levelRect tex ul vl).stx) =
        (levelRect tex (ul - 1) vl).edx - (levelRect tex (ul - 1) vl).stx) ∧
    (tex.mipmapLevel ≠ 0 → 0 ≤ vl → vl ≤ tex.mipmapLevel →
      (levelRect tex ul vl).edy - (levelRect tex ul vl).sty = 2 ^ (tex.mipmapLevel - vl).toNat ∧
      2 * ((levelRect tex ul vl).edy - (levelRect tex ul vl).sty) =
        (levelRect tex ul (vl - 1)).edy - (levelRect tex ul (vl - 1)).sty) := by
  have ext : ∀ L : ℤ, L ≤ tex.mipmapLevel →
      shl1 (tex.mipmapLevel - L + 1) - shl1 (tex.mipmapLevel - L) = shl1 (tex.mipmapLevel - L) := by
    intro L hL
    rw [shl1_succ (by omega)]
    ring
  have half : ∀ L : ℤ, L ≤ tex.mipmapLevel →
      2 * shl1 (tex.mipmapLevel - L) = shl1 (tex.mipmapLevel - (L - 1)) := by
    intro L hL
    rw [show tex.mipmapLevel - (L - 1) = tex.mipmapLevel - L + 1 by ring, shl1_succ (by omega)]
  refine ⟨?_, ?_, ?_, ?_⟩
  · intro h0
    simp [levelRect, h0]
  · intro hne _ _
    simp [levelRect, hne, shl1]
  · intro hne _ hu
    have e1 := ext ul hu
    have e2 := ext (ul - 1) (by omega)
    have e3 := half ul hu
    simp only [levelRect, hne, ne_eq, not_false_eq_true, if_true]
    refine ⟨?_, ?_⟩
    · have : shl1 (tex.mipmapLevel - ul) = 2 ^ (tex.mipmapLevel - ul).toNat := rfl
      omega
    · omega
  · intro hne _ hv
    have e1 := ext vl hv
    have e2 := ext (vl - 1) (by omega)
    have e3 := half vl hv
    simp only [levelRect, hne, ne_eq, not_false_eq_true, if_true]
    refine ⟨?_, ?_⟩
    · have : shl1 (tex.mipmapLevel - vl) = 2 ^ (tex.mipmapLevel - vl).toNat := rfl
      omega
    · omega

/-- C10.  For `levelCount = N ≥ 1` and `rawWidth, rawHeight ≥ 2^(N+1)`, the rectangles of two
different levels `j, k` in `0..N` (with `ul = vl`) share no pixel, every pixel of a level's
rectangle lies in `[0, rawWidth) x [0, rawHeight)`, and each rectangle is non-empty (it contains
its own start pixel). -/
theorem level_rects_disjoint_and_inside {T : Type} (tex : Texture2D T)
    (hN : 1 ≤ tex.mipmapLevel)
    (hW : 2 ^ (tex.mipmapLevel + 1).toNat ≤ tex.rawWidth)
    (hH : 2 ^ (tex.mipmapLevel + 1).toNat ≤ tex.rawHeight) :
    (∀ j k : ℤ, 0 ≤ j → j ≤ tex.mipmapLevel → 0 ≤ k → k ≤ tex.mipmapLevel → j ≠ k →
      ∀ x y : ℤ, ¬ ((levelRect tex j j).Contains x y ∧ (levelRect tex k k).Contains x y)) ∧
    (∀ k : ℤ, 0 ≤ k → k ≤ tex.mipmapLevel →
      (∀ x y : ℤ, (levelRect tex k k).Contains x y →
        0 ≤ x ∧ x < tex.rawWidth ∧ 0 ≤ y ∧ y < tex.rawHeight) ∧
      (levelRect tex k k).Contains (levelRect tex k k).stx (levelRect tex k k).sty) := by
  have hne : tex.mipmapLevel ≠ 0 := by omega
  have rect : ∀ k : ℤ, levelRect tex k k =
      { stx := tex.rawWidth - shl1 (tex.mipmapLevel - k + 1)
        edx := tex.rawWidth - shl1 (tex.mipmapLevel - k)
        sty := tex.rawHeight - shl1 (tex.mipmapLevel - k + 1)
        edy := tex.rawHeight - shl1 (tex.mipmapLevel - k) } := by
    intro k
    simp [levelRect, hne]
  have hW2 : shl1 (tex.mipmapLevel + 1) ≤ tex.rawWidth := hW
  have hH2 : shl1 (tex.mipmapLevel + 1) ≤ tex.rawHeight := hH
  have ordered : ∀ j k : ℤ, j < k → ∀ x y : ℤ,
      ¬ ((levelRect tex j j).Contains x y ∧ (levelRect tex k k).Contains x y) := by
    intro j k hjk x y
    rw [rect j, rect k]
    simp only [Rect.Contains]
    have m : shl1 (tex.mipmapLevel - k + 1) ≤ shl1 (tex.mipmapLevel - j) := shl1_mono (by omega)
    omega
  constructor
  · intro j k _ _ _ _ hjk x y
    rcases lt_or_gt_of_ne hjk with h | h
    · exact ordered j k h x y
    · intro hc
      exact ordered k j h x y ⟨hc.2, hc.1⟩
  · intro k hk0 hkN
    have top : shl1 (tex.mipmapLevel - k + 1) ≤ shl1 (tex.mipmapLevel + 1) := shl1_mono (by omega)
    have pos : 0 < shl1 (tex.mipmapLevel - k) := shl1_pos _
    have dbl : shl1 (tex.mipmapLevel - k + 1) = 2 * shl1 (tex.mipmapLevel - k) :=
      shl1_succ (by omega)
    rw [rect k]
    simp only [Rect.Contains]
    constructor
    · intro x y
      omega
    · omega

/-- C9, witness: on the single-level `flatTex` the rectangle is `(0, 4, 0, 4)`; on `pyramidTex`
level 1 has extent `2^(2 - 1)` on the x axis, half the extent of level 0. -/
theorem levelRect_formula_witness :
    (levelRect flatTex 0 0 = { stx := 0, edx := 4, sty := 0, edy := 4 }) ∧
    ((levelRect pyramidTex 1 1).edx - (levelRect pyramidTex 1 1).stx =
        2 ^ (pyramidTex.mipmapLevel - 1).toNat ∧
      2 * ((levelRect pyramidTex 1 1).edx - (levelRect pyramidTex 1 1).stx) =
        (levelRect pyramidTex (1 - 1) 1).edx - (levelRect pyramidTex (1 - 1) 1).stx) :=
  ⟨(levelRect_formula flatTex 0 0).1 rfl,
   (levelRect_formula pyramidTex 1 1).2.2.1 (by decide) (by decide) (by decide)⟩

/-- C10, witness: the three level rectangles of `pyramidTex` (8x8 storage, `levelCount = 2`). -/
theorem level_rects_disjoint_and_inside_witness :
    1 ≤ pyramidTex.mipmapLevel ∧
    2 ^ (pyramidTex.mipmapLevel + 1).toNat ≤ pyramidTex.rawWidth ∧
    2 ^ (pyramidTex.mipmapLevel + 1).toNat ≤ pyramidTex.rawHeight ∧
    ((∀ j k : ℤ, 0 ≤ j → j ≤ pyramidTex.mipmapLevel → 0 ≤ k → k ≤ pyramidTex.mipmapLevel →
        j ≠ k → ∀ x y : ℤ,
          ¬ ((levelRect pyramidTex j j).Contains x y ∧ (levelRect pyramidTex k k).Contains x y)) ∧
      (∀ k : ℤ, 0 ≤ k → k ≤ pyramidTex.mipmapLevel →
        (∀ x y : ℤ, (levelRect pyramidTex k k).Contains x y →
          0 ≤ x ∧ x < pyramidTex.rawWidth ∧ 0 ≤ y ∧ y < pyramidTex.rawHeight) ∧
        (levelRect pyramidTex k k).Contains (levelRect pyramidTex k k).stx
          (levelRect pyramidTex k k).sty)) :=
  ⟨by decide, by decide, by decide,
   level_rects_disjoint_and_inside pyramidTex (by decide) (by decide) (by decide)⟩


/-! ## Facts about the filter stage -/

/-- Once the address mode has resolved `rawUV` to `uv`, `sampleFromUVLevel` is the filter stage
on `uv` and the level rectangle. -/
theorem sampleFromUVLevel_of_resolve {T : Type} [AddCommMonoid T] [Module ℚ T]
    (s : Sampler2D T) (tex : Texture2D T) (uvDecl : Vec2f) (resultDecl : T) (rawUV uv : Vec2f)
    (ul vl : ℤ) (hres : resolveAddress s.addressMode uvDecl rawUV = some uv) :
    sampleFromUVLevel s tex uvDecl resultDecl rawUV ul vl =
      filterAt s tex resultDecl uv (levelRect tex ul vl) := by
  simp only [sampleFromUVLevel, hres]

/-- The `== 1.0f` branch of the neighbour selection. -/
theorem linearAxis_one (mode : AddressMode) (p : ℚ) (st ed : ℤ) :
    linearAxis mode 1 p st ed = (1, ed - 1, ed - 1) := by
  simp [linearAxis]

/-- The left-half branch of the neighbour selection, for a non-negative pixel coordinate. -/
theorem linearAxis_left (mode : AddressMode) (c p : ℚ) (st ed : ℤ) (hc : c ≠ 1) (hp : 0 ≤ p)
    (hf : Int.fract p < 1 / 2) :
    linearAxis mode c p st ed =
      (1 / 2 - Int.fract p,
        if mode = ADDRESS_MODE_REPEAT ∧ ⌊p⌋ = st then ed - 1 else max (⌊p⌋ - 1) st, ⌊p⌋) := by
  simp only [linearAxis, if_neg hc, fmod_one_of_nonneg hp, toInt_of_nonneg hp, if_pos hf]

/-- The right-half branch of the neighbour selection, for a non-negative pixel coordinate. -/
theorem linearAxis_right (mode : AddressMode) (c p : ℚ) (st ed : ℤ) (hc : c ≠ 1) (hp : 0 ≤ p)
    (hf : 1 / 2 ≤ Int.fract p) :
    linearAxis mode c p st ed =
      (3 / 2 - Int.fract p, ⌊p⌋,
        if mode = ADDRESS_MODE_REPEAT ∧ ⌊p⌋ = ed - 1 then st else min (⌊p⌋ + 1) (ed - 1)) := by
  simp only [linearAxis, if_neg hc, fmod_one_of_nonneg hp, toInt_of_nonneg hp,
    if_neg (not_lt.mpr hf)]

/-- The `FILTER_MODE_LINEAR` blend in terms of the two per-axis selections. -/
theorem filterAt_linear {T : Type} [AddCommMonoid T] [Module ℚ T] (s : Sampler2D T)
    (tex : Texture2D T) (resultDecl : T) (uv : Vec2f) (r : Rect) (ku kv : ℚ) (x0 x1 y0 y1 : ℤ)
    (hf : s.filterMode = FILTER_MODE_LINEAR)
    (hu : linearAxis s.addressMode uv.u (uvInTex r uv).u r.stx r.edx = (ku, x0, x1))
    (hv : linearAxis s.addressMode uv.v (uvInTex r uv).v r.sty r.edy = (kv, y0, y1)) :
    filterAt s tex resultDecl uv r =
      { value := (ku * kv) • tex.at x0 y0 + ((1 - ku) * kv) • tex.at x1 y0 +
          (ku * (1 - kv)) • tex.at x0 y1 + ((1 - ku) * (1 - kv)) • tex.at x1 y1,
        fetches := [(x0, y0), (x1, y0), (x0, y1), (x1, y1)] } := by
  simp only [filterAt, hf, hu, hv, zero_add]

/-- The `FILTER_MODE_POINT` fetch. -/
theorem filterAt_point {T : Type} [AddCommMonoid T] [Module ℚ T] (s : Sampler2D T)
    (tex : Texture2D T) (resultDecl : T) (uv : Vec2f) (r : Rect)
    (hf : s.filterMode = FILTER_MODE_POINT) :
    filterAt s tex resultDecl uv r =
      { value := tex.at (toInt (uvInTex r uv).u) (toInt (uvInTex r uv).v),
        fetches := [(toInt (uvInTex r uv).u, toInt (uvInTex r uv).v)] } := by
  simp only [filterAt, hf, Vec2f.x, Vec2f.y]

/-! ## C11: width of the level-0 rectangle -/

/-- C11, counterexample.  On `wideTex` (`width = 8`, `levelCount = 2`) the level-0 rectangle
computed by the formula is `[8, 12)` on the x axis: its width is 4, not the `width` field 8. -/
theorem level_zero_width_counterexample :
    levelRect wideTex 0 0 = { stx := 8, edx := 12, sty := 0, edy := 4 } ∧
    (levelRect wideTex 0 0).edx - (levelRect wideTex 0 0).stx = 4 ∧
    wideTex.width = 8 ∧
    (levelRect wideTex 0 0).edx - (levelRect wideTex 0 0).stx ≠ wideTex.width := by
  have h : levelRect wideTex 0 0 = { stx := 8, edx := 12, sty := 0, edy := 4 } := by
    simp [levelRect, wideTex, shl1]
  refine ⟨h, ?_, rfl, ?_⟩
  · rw [h]; norm_num
  · rw [h]; norm_num [wideTex]

/-- C11, amended.  For a texture with `levelCount = 0` the level-0 rectangle has width
`edx - stx` equal to the `width` field; for `levelCount = N ≥ 1` its width is `2^N`, which equals
the `width` field exactly when `width = 2^N`. -/
theorem level_zero_width {T : Type} (tex : Texture2D T) (vl : ℤ) :
    (tex.mipmapLevel = 0 →
      (levelRect tex 0 vl).edx - (levelRect tex 0 vl).stx = tex.width) ∧
    (1 ≤ tex.mipmapLevel →
      (levelRect tex 0 vl).edx - (levelRect tex 0 vl).stx = 2 ^ tex.mipmapLevel.toNat ∧
      ((levelRect tex 0 vl).edx - (levelRect tex 0 vl).stx = tex.width ↔
        tex.width = 2 ^ tex.mipmapLevel.toNat)) := by
  constructor
  · intro h0
    simp [levelRect, h0]
  · intro hN
    have hne : tex.mipmapLevel ≠ 0 := by omega
    have hs : shl1 (tex.mipmapLevel + 1) = 2 * shl1 tex.mipmapLevel := shl1_succ (by omega)
    have hw : (levelRect tex 0 vl).edx - (levelRect tex 0 vl).stx = 2 ^ tex.mipmapLevel.toNat := by
      have e : shl1 tex.mipmapLevel = 2 ^ tex.mipmapLevel.toNat := rfl
      simp only [levelRect, hne, ne_eq, not_false_eq_true, if_true, sub_zero]
      omega
    refine ⟨hw, ?_⟩
    rw [hw]
    exact eq_comm

/-- C11, amended, witness: `flatTex` (`levelCount = 0`, width 4) and `pyramidTex`
(`levelCount = 2`, width `4 = 2^2`). -/
theorem level_zero_width_witness :
    ((levelRect flatTex 0 0).edx - (levelRect flatTex 0 0).stx = flatTex.width) ∧
    ((levelRect pyramidTex 0 0).edx - (levelRect pyramidTex 0 0).stx =
        2 ^ pyramidTex.mipmapLevel.toNat) :=
  ⟨(level_zero_width flatTex 0).1 rfl, ((level_zero_width pyramidTex 0).2 (by decide)).1⟩

/-! ## Facts used at texel centres and grid points -/

/-- No integer is an integer plus one half. -/
theorem int_ne_int_add_half (e i : ℤ) : (e : ℚ) ≠ (i : ℚ) + 1 / 2 := by
  intro h
  have h2 : ((2 * e : ℤ) : ℚ) = ((2 * i + 1 : ℤ) : ℚ) := by push_cast; linarith
  have h3 : 2 * e = 2 * i + 1 := by exact_mod_cast h2
  omega

/-- A pixel coordinate `i + 1/2` with `0 ≤ i` selects `i` with factor 1. -/
theorem linearAxis_centre (mode : AddressMode) (c : ℚ) (st ed i : ℤ) (hc : c ≠ 1)
    (hi : 0 ≤ i) :
    linearAxis mode c ((i : ℚ) + 1 / 2) st ed =
      (1, i, if mode = ADDRESS_MODE_REPEAT ∧ i = ed - 1 then st else min (i + 1) (ed - 1)) := by
  have hp : (0 : ℚ) ≤ (i : ℚ) + 1 / 2 := by
    have : (0 : ℚ) ≤ (i : ℚ) := by exact_mod_cast hi
    linarith
  have hfl : ⌊(i : ℚ) + 1 / 2⌋ = i := by
    rw [Int.floor_eq_iff]
    constructor <;> linarith
  have hfr : Int.fract ((i : ℚ) + 1 / 2) = 1 / 2 := by
    rw [Int.fract, hfl]
    ring
  rw [linearAxis_right mode c _ st ed hc hp (by rw [hfr]), hfr, hfl]
  norm_num

/-- A blend whose two factors are 1 is the first texel. -/
theorem blend_unit {T : Type} [AddCommMonoid T] [Module ℚ T] (a b c d : T) :
    ((1 : ℚ) * 1) • a + ((1 - 1 : ℚ) * 1) • b + ((1 : ℚ) * (1 - 1)) • c +
      ((1 - 1 : ℚ) * (1 - 1)) • d = a := by
  simp

/-! ## C13: `FILTER_MODE_LINEAR` at a texel centre -/

/-- C13.  With `FILTER_MODE_LINEAR`, for every address mode, when the pixel-space position of the
resolved `uv` is the centre `(i + 0.5, j + 0.5)` of a texel `(i, j)` of the storage
(`0 ≤ i`, `0 ≤ j`), the filter stage returns `tex.at i j`, which is also what
`FILTER_MODE_POINT` returns for the same inputs; the same holds for `sampleFromUVLevel` once
`rawUV` resolves to `uv`. -/
theorem linear_at_texel_centre {T : Type} [AddCommMonoid T] [Module ℚ T] (s : Sampler2D T)
    (tex : Texture2D T) (uvDecl : Vec2f) (resultDecl : T) (rawUV uv : Vec2f) (r : Rect)
    (i j : ℤ)
    (hf : s.filterMode = FILTER_MODE_LINEAR)
    (hi : 0 ≤ i) (hj : 0 ≤ j)
    (hpu : (uvInTex r uv).u = (i : ℚ) + 1 / 2)
    (hpv : (uvInTex r uv).v = (j : ℚ) + 1 / 2) :
    (filterAt s tex resultDecl uv r).value = tex.at i j ∧
    (filterAt { s with filterMode := FILTER_MODE_POINT } tex resultDecl uv r).value =
      tex.at i j ∧
    (∀ ul vl : ℤ, resolveAddress s.addressMode uvDecl rawUV = some uv →
      levelRect tex ul vl = r →
      (sampleFromUVLevel s tex uvDecl resultDecl rawUV ul vl).value = tex.at i j ∧
      (sampleFromUVLevel { s with filterMode := FILTER_MODE_POINT } tex uvDecl resultDecl
        rawUV ul vl).value = tex.at i j) := by
  have hu1 : uv.u ≠ 1 := by
    intro h
    have e : (uvInTex r uv).u = (r.edx : ℚ) := by
      simp only [uvInTex, h]; push_cast; ring
    rw [e] at hpu
    exact int_ne_int_add_half _ _ hpu
  have hv1 : uv.v ≠ 1 := by
    intro h
    have e : (uvInTex r uv).v = (r.edy : ℚ) := by
      simp only [uvInTex, h]; push_cast; ring
    rw [e] at hpv
    exact int_ne_int_add_half _ _ hpv
  have hpi : (0 : ℚ) ≤ (i : ℚ) + 1 / 2 := by
    have : (0 : ℚ) ≤ (i : ℚ) := by exact_mod_cast hi
    linarith
  have hpj : (0 : ℚ) ≤ (j : ℚ) + 1 / 2 := by
    have : (0 : ℚ) ≤ (j : ℚ) := by exact_mod_cast hj
    linarith
  have hfi : ⌊(i : ℚ) + 1 / 2⌋ = i := by
    rw [Int.floor_eq_iff]; constructor <;> linarith
  have hfj : ⌊(j : ℚ) + 1 / 2⌋ = j := by
    rw [Int.floor_eq_iff]; constructor <;> linarith
  have lin : (filterAt s tex resultDecl uv r).value = tex.at i j := by
    have hu := linearAxis_centre s.addressMode uv.u r.stx r.edx i hu1 hi
    have hv := linearAxis_centre s.addressMode uv.v r.sty r.edy j hv1 hj
    rw [← hpu] at hu
    rw [← hpv] at hv
    rw [filterAt_linear s tex resultDecl uv r _ _ _ _ _ _ hf hu hv]
    exact blend_unit _ _ _ _
  have pt : (filterAt { s with filterMode := FILTER_MODE_POINT } tex resultDecl uv r).value =
      tex.at i j := by
    rw [filterAt_point { s with filterMode := FILTER_MODE_POINT } tex resultDecl uv r rfl]
    simp only [hpu, hpv, toInt_of_nonneg hpi, toInt_of_nonneg hpj, hfi, hfj]
  refine ⟨lin, pt, ?_⟩
  intro ul vl hres hr
  rw [sampleFromUVLevel_of_resolve s tex uvDecl resultDecl rawUV uv ul vl hres,
    sampleFromUVLevel_of_resolve { s with filterMode := FILTER_MODE_POINT } tex uvDecl resultDecl
      rawUV uv ul vl hres, hr]
  exact ⟨lin, pt⟩

/-- C13, witness: on `flatTex`, `uv = (3/8, 5/8)` lies at the centre `(1.5, 2.5)` of texel
`(1, 2)`. -/
theorem linear_at_texel_centre_witness :
    ((0 : ℤ) ≤ 1 ∧ (0 : ℤ) ≤ 2) ∧
    (filterAt (mkSampler MIPMAP_MODE_NO_MIPMAP ADDRESS_MODE_REPEAT FILTER_MODE_LINEAR)
        flatTex 0 ⟨3 / 8, 5 / 8⟩ (levelRect flatTex 0 0)).value = flatTex.at 1 2 :=
  ⟨⟨by decide, by decide⟩,
   (linear_at_texel_centre
      (mkSampler MIPMAP_MODE_NO_MIPMAP ADDRESS_MODE_REPEAT FILTER_MODE_LINEAR)
      flatTex ⟨0, 0⟩ 0 ⟨3 / 8, 5 / 8⟩ ⟨3 / 8, 5 / 8⟩ (levelRect flatTex 0 0) 1 2 rfl
      (by decide) (by decide)
      (by norm_num [uvInTex, levelRect, flatTex])
      (by norm_num [uvInTex, levelRect, flatTex])).1⟩

/-- An integer pixel coordinate takes the left-half branch with factor one half. -/
theorem linearAxis_int (mode : AddressMode) (c : ℚ) (st ed n : ℤ) (hc : c ≠ 1) :
    linearAxis mode c (n : ℚ) st ed =
      (1 / 2, if mode = ADDRESS_MODE_REPEAT ∧ n = st then ed - 1 else max (n - 1) st, n) := by
  have h0 : (0 : ℚ) < 1 / 2 := by norm_num
  simp only [linearAxis, if_neg hc, fmod_one_intCast, toInt_intCast, sub_zero, if_pos h0]

/-- The pixel-space coordinate of the normalized coordinate 0 is the start bound. -/
theorem uvInTex_zero (st ed : ℤ) : (st : ℚ) + 0 * ((ed - st : ℤ) : ℚ) = (st : ℚ) := by
  ring

/-! ## C14: `FILTER_MODE_LINEAR` at the wrap boundary under `ADDRESS_MODE_REPEAT` -/

/-- C14.  With `FILTER_MODE_LINEAR` and `ADDRESS_MODE_REPEAT`, a resolved coordinate 0 on an axis
(`p = start`) selects the last index `end - 1` and the first index `start` of that axis, each
with weight 1/2: the blend pairs the texels at `end - 1` and at `start` half and half, whatever
the other axis selects.  (Under `CLAMP_TO_EDGE` the same coordinate selects `start` twice.) -/
theorem repeat_linear_wrap_boundary {T : Type} [AddCommMonoid T] [Module ℚ T]
    (s : Sampler2D T) (tex : Texture2D T) (resultDecl : T) (uv : Vec2f) (r : Rect)
    (hf : s.filterMode = FILTER_MODE_LINEAR) (ha : s.addressMode = ADDRESS_MODE_REPEAT) :
    (uv.u = 0 → ∀ (kv : ℚ) (y0 y1 : ℤ),
      linearAxis s.addressMode uv.v (uvInTex r uv).v r.sty r.edy = (kv, y0, y1) →
      filterAt s tex resultDecl uv r =
        { value := (1 / 2 * kv) • tex.at (r.edx - 1) y0 + ((1 - 1 / 2) * kv) • tex.at r.stx y0 +
            (1 / 2 * (1 - kv)) • tex.at (r.edx - 1) y1 +
            ((1 - 1 / 2) * (1 - kv)) • tex.at r.stx y1,
          fetches := [(r.edx - 1, y0), (r.stx, y0), (r.edx - 1, y1), (r.stx, y1)] }) ∧
    (uv.v = 0 → ∀ (ku : ℚ) (x0 x1 : ℤ),
      linearAxis s.addressMode uv.u (uvInTex r uv).u r.stx r.edx = (ku, x0, x1) →
      filterAt s tex resultDecl uv r =
        { value := (ku * (1 / 2)) • tex.at x0 (r.edy - 1) +
            ((1 - ku) * (1 / 2)) • tex.at x1 (r.edy - 1) +
            (ku * (1 - 1 / 2)) • tex.at x0 r.sty + ((1 - ku) * (1 - 1 / 2)) • tex.at x1 r.sty,
          fetches := [(x0, r.edy - 1), (x1, r.edy - 1), (x0, r.sty), (x1, r.sty)] }) ∧
    (∀ st ed : ℤ, linearAxis ADDRESS_MODE_REPEAT 0 (st : ℚ) st ed = (1 / 2, ed - 1, st) ∧
      linearAxis ADDRESS_MODE_CLAMP_TO_EDGE 0 (st : ℚ) st ed = (1 / 2, st, st)) := by
  refine ⟨?_, ?_, ?_⟩
  · intro hu kv y0 y1 hv
    have hax : linearAxis s.addressMode uv.u (uvInTex r uv).u r.stx r.edx =
        (1 / 2, r.edx - 1, r.stx) := by
      have e : (uvInTex r uv).u = (r.stx : ℚ) := by
        simp only [uvInTex, hu]; ring
      rw [e, hu, ha, linearAxis_int ADDRESS_MODE_REPEAT 0 r.stx r.edx r.stx (by norm_num)]
      simp
    rw [filterAt_linear s tex resultDecl uv r _ _ _ _ _ _ hf hax hv]
  · intro hv ku x0 x1 hu
    have hax : linearAxis s.addressMode uv.v (uvInTex r uv).v r.sty r.edy =
        (1 / 2, r.edy - 1, r.sty) := by
      have e : (uvInTex r uv).v = (r.sty : ℚ) := by
        simp only [uvInTex, hv]; ring
      rw [e, hv, ha, linearAxis_int ADDRESS_MODE_REPEAT 0 r.sty r.edy r.sty (by norm_num)]
      simp
    rw [filterAt_linear s tex resultDecl uv r _ _ _ _ _ _ hf hu hax]
  · intro st ed
    rw [linearAxis_int ADDRESS_MODE_REPEAT 0 st ed st (by norm_num),
      linearAxis_int ADDRESS_MODE_CLAMP_TO_EDGE 0 st ed st (by norm_num)]
    simp

/-- C14, witness: on `flatTex` with `REPEAT`, `uv = (0, 3/8)` blends texels `(3, 1)` and `(0, 1)`
(the v axis sits on the centre of row 1). -/
theorem repeat_linear_wrap_boundary_witness :
    filterAt (mkSampler MIPMAP_MODE_NO_MIPMAP ADDRESS_MODE_REPEAT FILTER_MODE_LINEAR)
        flatTex 0 ⟨0, 3 / 8⟩ (levelRect flatTex 0 0) =
      { value := ((1 / 2 : ℚ) * 1) • flatTex.at ((levelRect flatTex 0 0).edx - 1) 1 +
            ((1 - 1 / 2 : ℚ) * 1) • flatTex.at (levelRect flatTex 0 0).stx 1 +
            ((1 / 2 : ℚ) * (1 - 1)) • flatTex.at ((levelRect flatTex 0 0).edx - 1) 2 +
            ((1 - 1 / 2 : ℚ) * (1 - 1)) • flatTex.at (levelRect flatTex 0 0).stx 2,
        fetches := [((levelRect flatTex 0 0).edx - 1, 1), ((levelRect flatTex 0 0).stx, 1),
          ((levelRect flatTex 0 0).edx - 1, 2), ((levelRect flatTex 0 0).stx, 2)] } :=
  (repeat_linear_wrap_boundary
      (mkSampler MIPMAP_MODE_NO_MIPMAP ADDRESS_MODE_REPEAT FILTER_MODE_LINEAR)
      flatTex 0 ⟨0, 3 / 8⟩ (levelRect flatTex 0 0) rfl rfl).1 rfl 1 1 2
    (by
      have e : (uvInTex (levelRect flatTex 0 0) ⟨0, 3 / 8⟩).v = ((1 : ℤ) : ℚ) + 1 / 2 := by
        norm_num [uvInTex, levelRect, flatTex]
      rw [e]
      have h := linearAxis_centre ADDRESS_MODE_REPEAT (3 / 8) (levelRect flatTex 0 0).sty
        (levelRect flatTex 0 0).edy 1 (by norm_num) (by decide)
      simpa [levelRect, flatTex, mkSampler] using h)

/-- An integer pixel coordinate above the start bound selects `n - 1` and `n`, half and half. -/
theorem linearAxis_grid (mode : AddressMode) (c : ℚ) (st ed n : ℤ) (hc : c ≠ 1) (hn : st < n) :
    linearAxis mode c (n : ℚ) st ed = (1 / 2, n - 1, n) := by
  rw [linearAxis_int mode c st ed n hc]
  have h1 : ¬ (mode = ADDRESS_MODE_REPEAT ∧ n = st) := fun h => by omega
  rw [if_neg h1, max_eq_left (by omega)]

/-- A blend whose two factors are one half is the unweighted average. -/
theorem blend_quarter {T : Type} [AddCommMonoid T] [Module ℚ T] (a b c d : T) :
    ((1 / 2 : ℚ) * (1 / 2)) • a + ((1 - 1 / 2 : ℚ) * (1 / 2)) • b +
      ((1 / 2 : ℚ) * (1 - 1 / 2)) • c + ((1 - 1 / 2 : ℚ) * (1 - 1 / 2)) • d =
    (1 / 4 : ℚ) • (a + b + c + d) := by
  norm_num [smul_add]

/-! ## C15: `FILTER_MODE_LINEAR` at an interior grid point -/

/-- C15.  With `FILTER_MODE_LINEAR`, for every address mode, when the pixel-space position is an
integer grid point `(i, j)` with `stx < i`, `sty < j` and neither `uv` component equal to 1, the
filter stage fetches the texels `(i-1, j-1)`, `(i, j-1)`, `(i-1, j)`, `(i, j)` and returns their
unweighted average (weight 1/4 each); for the 4x4 texture with `levelCount = 0`,
`CLAMP_TO_EDGE` and `uv = (0.5, 0.5)` these are the four texels around grid position `(2, 2)`. -/
theorem linear_at_grid_point {T : Type} [AddCommMonoid T] [Module ℚ T] (s : Sampler2D T)
    (tex : Texture2D T) (resultDecl : T) (uv : Vec2f) (r : Rect) (i j : ℤ)
    (hf : s.filterMode = FILTER_MODE_LINEAR)
    (hu1 : uv.u ≠ 1) (hv1 : uv.v ≠ 1)
    (hpu : (uvInTex r uv).u = (i : ℚ)) (hpv : (uvInTex r uv).v = (j : ℚ))
    (hi : r.stx < i) (hj : r.sty < j) :
    filterAt s tex resultDecl uv r =
      { value := (1 / 4 : ℚ) •
          (tex.at (i - 1) (j - 1) + tex.at i (j - 1) + tex.at (i - 1) j + tex.at i j),
        fetches := [(i - 1, j - 1), (i, j - 1), (i - 1, j), (i, j)] } ∧
    (∀ uvDecl : Vec2f,
      sampleFromUVLevel
          (mkSampler MIPMAP_MODE_NO_MIPMAP ADDRESS_MODE_CLAMP_TO_EDGE FILTER_MODE_LINEAR)
          flatTex uvDecl 0 ⟨1 / 2, 1 / 2⟩ 0 0 =
        { value := (1 / 4 : ℚ) •
            (flatTex.at 1 1 + flatTex.at 2 1 + flatTex.at 1 2 + flatTex.at 2 2),
          fetches := [(1, 1), (2, 1), (1, 2), (2, 2)] }) := by
  constructor
  · have hu := linearAxis_grid s.addressMode uv.u r.stx r.edx i hu1 hi
    have hv := linearAxis_grid s.addressMode uv.v r.sty r.edy j hv1 hj
    rw [← hpu] at hu
    rw [← hpv] at hv
    rw [filterAt_linear s tex resultDecl uv r _ _ _ _ _ _ hf hu hv, blend_quarter]
  · intro uvDecl
    have c1 : clamp (1 / 2) 0 1 = 1 / 2 := by norm_num [clamp]
    have hres : resolveAddress ADDRESS_MODE_CLAMP_TO_EDGE uvDecl ⟨1 / 2, 1 / 2⟩ =
        some ⟨1 / 2, 1 / 2⟩ := by
      simp only [resolveAddress, c1]
    have hr : levelRect flatTex 0 0 = { stx := 0, edx := 4, sty := 0, edy := 4 } := by
      simp [levelRect, flatTex]
    have hp : ((0 : ℤ) : ℚ) + 1 / 2 * ((4 - 0 : ℤ) : ℚ) = ((2 : ℤ) : ℚ) := by norm_num
    have hg := linearAxis_grid ADDRESS_MODE_CLAMP_TO_EDGE (1 / 2) 0 4 2 (by norm_num) (by decide)
    rw [← hp] at hg
    rw [sampleFromUVLevel_of_resolve _ flatTex uvDecl 0 _ _ 0 0 hres, hr,
      filterAt_linear _ flatTex 0 ⟨1 / 2, 1 / 2⟩ { stx := 0, edx := 4, sty := 0, edy := 4 }
        (1 / 2) (1 / 2) (2 - 1) 2 (2 - 1) 2 rfl hg hg, blend_quarter]
    norm_num

/-- C15, witness: the grid point `(2, 2)` of `flatTex`, reached with `uv = (0.5, 0.5)`. -/
theorem linear_at_grid_point_witness :
    ((1 / 2 : ℚ) ≠ 1 ∧ (levelRect flatTex 0 0).stx < 2 ∧ (levelRect flatTex 0 0).sty < 2) ∧
    filterAt (mkSampler MIPMAP_MODE_NO_MIPMAP ADDRESS_MODE_REPEAT FILTER_MODE_LINEAR)
        flatTex 0 ⟨1 / 2, 1 / 2⟩ (levelRect flatTex 0 0) =
      { value := (1 / 4 : ℚ) •
          (flatTex.at (2 - 1) (2 - 1) + flatTex.at 2 (2 - 1) + flatTex.at (2 - 1) 2 +
            flatTex.at 2 2),
        fetches := [(2 - 1, 2 - 1), (2, 2 - 1), (2 - 1, 2), (2, 2)] } :=
  ⟨⟨by norm_num, by decide, by decide⟩,
   (linear_at_grid_point
      (mkSampler MIPMAP_MODE_NO_MIPMAP ADDRESS_MODE_REPEAT FILTER_MODE_LINEAR)
      flatTex 0 ⟨1 / 2, 1 / 2⟩ (levelRect flatTex 0 0) 2 2 rfl
      (by norm_num) (by norm_num)
      (by norm_num [uvInTex, levelRect, flatTex])
      (by norm_num [uvInTex, levelRect, flatTex])
      (by decide) (by decide)).1⟩

/-! ## C16: `FILTER_MODE_ANISOTROPIC` -/

/-- C16, the code at the failing input.  With `FILTER_MODE_ANISOTROPIC` on the 4x4 single-level
texture, `CLAMP_TO_EDGE`, in-range `uv = (0.5, 0.5)` and level 0, `sampleFromUVLevel` makes no
fetch and returns whatever the declaration `T result;` left in `result`: the result follows
`resultDecl` (7 gives 7, 8 gives 8), while `FILTER_MODE_LINEAR` returns 33/2 on the same
inputs. -/
theorem anisotropic_returns_unassigned_result (uvDecl : Vec2f) (resultDecl : ℚ) :
    sampleFromUVLevel
        (mkSampler MIPMAP_MODE_NO_MIPMAP ADDRESS_MODE_CLAMP_TO_EDGE FILTER_MODE_ANISOTROPIC)
        flatTex uvDecl resultDecl ⟨1 / 2, 1 / 2⟩ 0 0 = { value := resultDecl, fetches := [] } ∧
    (sampleFromUVLevel
        (mkSampler MIPMAP_MODE_NO_MIPMAP ADDRESS_MODE_CLAMP_TO_EDGE FILTER_MODE_ANISOTROPIC)
        flatTex uvDecl 7 ⟨1 / 2, 1 / 2⟩ 0 0).value ≠
      (sampleFromUVLevel
        (mkSampler MIPMAP_MODE_NO_MIPMAP ADDRESS_MODE_CLAMP_TO_EDGE FILTER_MODE_ANISOTROPIC)
        flatTex uvDecl 8 ⟨1 / 2, 1 / 2⟩ 0 0).value ∧
    (sampleFromUVLevel
        (mkSampler MIPMAP_MODE_NO_MIPMAP ADDRESS_MODE_CLAMP_TO_EDGE FILTER_MODE_LINEAR)
        flatTex uvDecl resultDecl ⟨1 / 2, 1 / 2⟩ 0 0).value = 33 / 2 := by
  have c1 : clamp (1 / 2) 0 1 = 1 / 2 := by norm_num [clamp]
  have hres : resolveAddress ADDRESS_MODE_CLAMP_TO_EDGE uvDecl ⟨1 / 2, 1 / 2⟩ =
      some ⟨1 / 2, 1 / 2⟩ := by
    simp only [resolveAddress, c1]
  have aniso : ∀ rd : ℚ, sampleFromUVLevel
      (mkSampler MIPMAP_MODE_NO_MIPMAP ADDRESS_MODE_CLAMP_TO_EDGE FILTER_MODE_ANISOTROPIC)
      flatTex uvDecl rd ⟨1 / 2, 1 / 2⟩ 0 0 = { value := rd, fetches := [] } := by
    intro rd
    rw [sampleFromUVLevel_of_resolve _ flatTex uvDecl rd _ _ 0 0 hres]
    simp only [filterAt, mkSampler]
  refine ⟨aniso resultDecl, ?_, ?_⟩
  · rw [aniso 7, aniso 8]
    norm_num
  · have hr : levelRect flatTex 0 0 = { stx := 0, edx := 4, sty := 0, edy := 4 } := by
      simp [levelRect, flatTex]
    have hp : ((0 : ℤ) : ℚ) + 1 / 2 * ((4 - 0 : ℤ) : ℚ) = ((2 : ℤ) : ℚ) := by norm_num
    have hg := linearAxis_int ADDRESS_MODE_CLAMP_TO_EDGE (1 / 2) 0 4 2 (by norm_num)
    rw [← hp] at hg
    rw [sampleFromUVLevel_of_resolve _ flatTex uvDecl resultDecl _ _ 0 0 hres, hr,
      filterAt_linear _ flatTex resultDecl ⟨1 / 2, 1 / 2⟩
        { stx := 0, edx := 4, sty := 0, edy := 4 } _ _ _ _ _ _ rfl hg hg]
    norm_num [flatTex]

theorem floor_nine_quarters : ⌊(9 / 4 : ℚ)⌋ = 2 := by
  norm_num [Int.floor_eq_iff]

theorem fract_nine_quarters : Int.fract (9 / 4 : ℚ) = 1 / 4 := by
  norm_num [Int.fract, floor_nine_quarters]

/-- The two per-axis selections on `flatTex` for `uv = (9/16, 3/8)`, that is `p = (2.25, 1.5)`. -/
theorem flatTex_left_half_axes :
    linearAxis ADDRESS_MODE_CLAMP_TO_EDGE (9 / 16) (((0 : ℤ) : ℚ) + 9 / 16 * ((4 - 0 : ℤ) : ℚ))
      0 4 = (1 / 4, 1, 2) ∧
    linearAxis ADDRESS_MODE_CLAMP_TO_EDGE (3 / 8) (((0 : ℤ) : ℚ) + 3 / 8 * ((4 - 0 : ℤ) : ℚ))
      0 4 = (1, 1, 2) := by
  constructor
  · have hp : ((0 : ℤ) : ℚ) + 9 / 16 * ((4 - 0 : ℤ) : ℚ) = 9 / 4 := by norm_num
    rw [hp, linearAxis_left _ _ _ _ _ (by norm_num) (by norm_num)
      (by rw [fract_nine_quarters]; norm_num), fract_nine_quarters, floor_nine_quarters]
    norm_num
  · have hp : ((0 : ℤ) : ℚ) + 3 / 8 * ((4 - 0 : ℤ) : ℚ) = ((1 : ℤ) : ℚ) + 1 / 2 := by norm_num
    rw [hp, linearAxis_centre _ _ _ _ 1 (by norm_num) (by decide)]
    norm_num

/-! ## C17: weights on the left half of a texel -/

/-- C17, counterexample.  On the 4x4 single-level texture with `CLAMP_TO_EDGE`,
`FILTER_MODE_LINEAR` and `uv = (9/16, 3/8)` the pixel position is `p = (2.25, 1.5)`: on the x
axis `f = 0.25 < 0.5`, the upper neighbour is `floor(2.25) = 2` and the lower one is 1, and the
y axis sits on the centre of row 1.  The specification's weights (`0.5 - f` on the upper texel
`(2, 1)`, `0.5 + f` on the lower texel `(1, 1)`) give 45/4; the code puts `0.5 - f = 1/4` on the
lower texel and `3/4` on the upper texel and returns 47/4. -/
theorem linear_left_half_upper_weight_counterexample :
    Int.fract (9 / 4 : ℚ) = 1 / 4 ∧ ⌊(9 / 4 : ℚ)⌋ = 2 ∧
    sampleFromUVLevel
        (mkSampler MIPMAP_MODE_NO_MIPMAP ADDRESS_MODE_CLAMP_TO_EDGE FILTER_MODE_LINEAR)
        flatTex ⟨0, 0⟩ 0 ⟨9 / 16, 3 / 8⟩ 0 0 =
      { value := ((1 / 4 : ℚ) * 1) • flatTex.at 1 1 + ((1 - 1 / 4 : ℚ) * 1) • flatTex.at 2 1 +
          ((1 / 4 : ℚ) * (1 - 1)) • flatTex.at 1 2 + ((1 - 1 / 4 : ℚ) * (1 - 1)) • flatTex.at 2 2,
        fetches := [(1, 1), (2, 1), (1, 2), (2, 2)] } ∧
    (sampleFromUVLevel
        (mkSampler MIPMAP_MODE_NO_MIPMAP ADDRESS_MODE_CLAMP_TO_EDGE FILTER_MODE_LINEAR)
        flatTex ⟨0, 0⟩ 0 ⟨9 / 16, 3 / 8⟩ 0 0).value = 47 / 4 ∧
    specLeftHalfBlend (Int.fract (9 / 4 : ℚ)) (flatTex.at 1 1) (flatTex.at 2 1) = 45 / 4 := by
  have c1 : clamp (9 / 16) 0 1 = 9 / 16 := by norm_num [clamp]
  have c2 : clamp (3 / 8) 0 1 = 3 / 8 := by norm_num [clamp]
  have hres : resolveAddress ADDRESS_MODE_CLAMP_TO_EDGE ⟨0, 0⟩ ⟨9 / 16, 3 / 8⟩ =
      some ⟨9 / 16, 3 / 8⟩ := by
    simp only [resolveAddress, c1, c2]
  have hr : levelRect flatTex 0 0 = { stx := 0, edx := 4, sty := 0, edy := 4 } := by
    simp [levelRect, flatTex]
  have main : sampleFromUVLevel
      (mkSampler MIPMAP_MODE_NO_MIPMAP ADDRESS_MODE_CLAMP_TO_EDGE FILTER_MODE_LINEAR)
      flatTex ⟨0, 0⟩ 0 ⟨9 / 16, 3 / 8⟩ 0 0 =
      { value := ((1 / 4 : ℚ) * 1) • flatTex.at 1 1 + ((1 - 1 / 4 : ℚ) * 1) • flatTex.at 2 1 +
          ((1 / 4 : ℚ) * (1 - 1)) • flatTex.at 1 2 + ((1 - 1 / 4 : ℚ) * (1 - 1)) • flatTex.at 2 2,
        fetches := [(1, 1), (2, 1), (1, 2), (2, 2)] } := by
    rw [sampleFromUVLevel_of_resolve _ flatTex ⟨0, 0⟩ 0 _ _ 0 0 hres, hr]
    exact filterAt_linear _ flatTex 0 ⟨9 / 16, 3 / 8⟩ { stx := 0, edx := 4, sty := 0, edy := 4 }
      (1 / 4) 1 1 2 1 2 rfl flatTex_left_half_axes.1 flatTex_left_half_axes.2
  refine ⟨fract_nine_quarters, floor_nine_quarters, main, ?_, ?_⟩
  · rw [main]
    norm_num [flatTex]
  · rw [fract_nine_quarters]
    norm_num [specLeftHalfBlend, flatTex]

/-- C17, amended.  With `FILTER_MODE_LINEAR`, on an axis whose normalized coordinate is not 1 and
whose pixel coordinate `p ≥ 0` has `f = frac(p) < 0.5`, the neighbours are `upper = floor(p)` and
`lower = upper - 1` (clamped to `start`, or wrapped to `end - 1` under `REPEAT` when
`upper = start`), and the blend applies the weight `0.5 - f` to the texels at the lower
neighbour, the texels at the upper neighbour `floor(p)` receiving the remaining `0.5 + f`.
Stated for the u axis and for the v axis, whatever the other axis selects. -/
theorem linear_left_half_weights {T : Type} [AddCommMonoid T] [Module ℚ T]
    (s : Sampler2D T) (tex : Texture2D T) (resultDecl : T) (uv : Vec2f) (r : Rect)
    (hf : s.filterMode = FILTER_MODE_LINEAR) :
    (uv.u ≠ 1 → 0 ≤ (uvInTex r uv).u → Int.fract (uvInTex r uv).u < 1 / 2 →
      ∀ (lower : ℤ) (kv : ℚ) (y0 y1 : ℤ),
      lower = (if s.addressMode = ADDRESS_MODE_REPEAT ∧ ⌊(uvInTex r uv).u⌋ = r.stx
        then r.edx - 1 else max (⌊(uvInTex r uv).u⌋ - 1) r.stx) →
      linearAxis s.addressMode uv.v (uvInTex r uv).v r.sty r.edy = (kv, y0, y1) →
      filterAt s tex resultDecl uv r =
        { value :=
            ((1 / 2 - Int.fract (uvInTex r uv).u) * kv) • tex.at lower y0 +
            ((1 / 2 + Int.fract (uvInTex r uv).u) * kv) • tex.at ⌊(uvInTex r uv).u⌋ y0 +
            ((1 / 2 - Int.fract (uvInTex r uv).u) * (1 - kv)) • tex.at lower y1 +
            ((1 / 2 + Int.fract (uvInTex r uv).u) * (1 - kv)) • tex.at ⌊(uvInTex r uv).u⌋ y1,
          fetches := [(lower, y0), (⌊(uvInTex r uv).u⌋, y0), (lower, y1),
            (⌊(uvInTex r uv).u⌋, y1)] }) ∧
    (uv.v ≠ 1 → 0 ≤ (uvInTex r uv).v → Int.fract (uvInTex r uv).v < 1 / 2 →
      ∀ (lower : ℤ) (ku : ℚ) (x0 x1 : ℤ),
      lower = (if s.addressMode = ADDRESS_MODE_REPEAT ∧ ⌊(uvInTex r uv).v⌋ = r.sty
        then r.edy - 1 else max (⌊(uvInTex r uv).v⌋ - 1) r.sty) →
      linearAxis s.addressMode uv.u (uvInTex r uv).u r.stx r.edx = (ku, x0, x1) →
      filterAt s tex resultDecl uv r =
        { value :=
            (ku * (1 / 2 - Int.fract (uvInTex r uv).v)) • tex.at x0 lower +
            ((1 - ku) * (1 / 2 - Int.fract (uvInTex r uv).v)) • tex.at x1 lower +
            (ku * (1 / 2 + Int.fract (uvInTex r uv).v)) • tex.at x0 ⌊(uvInTex r uv).v⌋ +
            ((1 - ku) * (1 / 2 + Int.fract (uvInTex r uv).v)) • tex.at x1 ⌊(uvInTex r uv).v⌋,
          fetches := [(x0, lower), (x1, lower), (x0, ⌊(uvInTex r uv).v⌋),
            (x1, ⌊(uvInTex r uv).v⌋)] }) := by
  have w : ∀ f : ℚ, 1 - (1 / 2 - f) = 1 / 2 + f := fun f => by ring
  constructor
  · intro hc hp hfr lower kv y0 y1 hl hv
    have hu := linearAxis_left s.addressMode uv.u (uvInTex r uv).u r.stx r.edx hc hp hfr
    rw [← hl] at hu
    rw [filterAt_linear s tex resultDecl uv r _ _ _ _ _ _ hf hu hv, w]
  · intro hc hp hfr lower ku x0 x1 hl hu
    have hv := linearAxis_left s.addressMode uv.v (uvInTex r uv).v r.sty r.edy hc hp hfr
    rw [← hl] at hv
    rw [filterAt_linear s tex resultDecl uv r _ _ _ _ _ _ hf hu hv, w]

/-- C17, amended, witness: `flatTex` at `uv = (9/16, 3/8)`, where `p.x = 2.25`: weight `1/4` on
the lower texel column 1 and `3/4` on the upper texel column 2. -/
theorem linear_left_half_weights_witness :
    ((9 / 16 : ℚ) ≠ 1 ∧
      0 ≤ (uvInTex (levelRect flatTex 0 0) ⟨9 / 16, 3 / 8⟩).u ∧
      Int.fract (uvInTex (levelRect flatTex 0 0) ⟨9 / 16, 3 / 8⟩).u < 1 / 2) ∧
    filterAt (mkSampler MIPMAP_MODE_NO_MIPMAP ADDRESS_MODE_CLAMP_TO_EDGE FILTER_MODE_LINEAR)
        flatTex 0 ⟨9 / 16, 3 / 8⟩ (levelRect flatTex 0 0) =
      { value :=
          ((1 / 2 - Int.fract (uvInTex (levelRect flatTex 0 0) ⟨9 / 16, 3 / 8⟩).u) * 1) •
            flatTex.at 1 1 +
          ((1 / 2 + Int.fract (uvInTex (levelRect flatTex 0 0) ⟨9 / 16, 3 / 8⟩).u) * 1) •
            flatTex.at ⌊(uvInTex (levelRect flatTex 0 0) ⟨9 / 16, 3 / 8⟩).u⌋ 1 +
          ((1 / 2 - Int.fract (uvInTex (levelRect flatTex 0 0) ⟨9 / 16, 3 / 8⟩).u) * (1 - 1)) •
            flatTex.at 1 2 +
          ((1 / 2 + Int.fract (uvInTex (levelRect flatTex 0 0) ⟨9 / 16, 3 / 8⟩).u) * (1 - 1)) •
            flatTex.at ⌊(uvInTex (levelRect flatTex 0 0) ⟨9 / 16, 3 / 8⟩).u⌋ 2,
        fetches := [(1, 1), (⌊(uvInTex (levelRect flatTex 0 0) ⟨9 / 16, 3 / 8⟩).u⌋, 1), (1, 2),
          (⌊(uvInTex (levelRect flatTex 0 0) ⟨9 / 16, 3 / 8⟩).u⌋, 2)] } :=
  have hp : (uvInTex (levelRect flatTex 0 0) ⟨9 / 16, 3 / 8⟩).u = 9 / 4 := by
    norm_num [uvInTex, levelRect, flatTex]
  have hq : (uvInTex (levelRect flatTex 0 0) ⟨9 / 16, 3 / 8⟩).v =
      ((0 : ℤ) : ℚ) + 3 / 8 * ((4 - 0 : ℤ) : ℚ) := by
    norm_num [uvInTex, levelRect, flatTex]
  have h0 : (0 : ℚ) ≤ (uvInTex (levelRect flatTex 0 0) ⟨9 / 16, 3 / 8⟩).u := by
    rw [hp]; norm_num
  have h1 : Int.fract (uvInTex (levelRect flatTex 0 0) ⟨9 / 16, 3 / 8⟩).u < 1 / 2 := by
    rw [hp, fract_nine_quarters]; norm_num
  ⟨⟨by norm_num, h0, h1⟩,
   (linear_left_half_weights
      (mkSampler MIPMAP_MODE_NO_MIPMAP ADDRESS_MODE_CLAMP_TO_EDGE FILTER_MODE_LINEAR)
      flatTex 0 ⟨9 / 16, 3 / 8⟩ (levelRect flatTex 0 0) rfl).1 (by norm_num) h0 h1 1 1 1 2
      (by rw [hp, floor_nine_quarters]; simp [mkSampler, levelRect, flatTex])
      (by
        rw [hq]
        have h := flatTex_left_half_axes.2
        simpa [mkSampler, levelRect, flatTex] using h)⟩

/-! ## C18: `FILTER_MODE_POINT` at a coordinate equal to 1 -/

/-- C18, the code at the failing input.  With `FILTER_MODE_POINT` and `CLAMP_TO_EDGE` on the 4x4
single-level texture (level rectangle `(0, 4, 0, 4)`), `rawUV = (1, 1)` resolves to `(1, 1)`,
the pixel position is `(4, 4)` and the texel fetched is `(4, 4)`: outside the rectangle, whose
last texel is `(3, 3)`.  With `FILTER_MODE_LINEAR` the same input is pinned to `(3, 3)`. -/
theorem point_filter_at_one_fetches_end (uvDecl : Vec2f) :
    levelRect flatTex 0 0 = { stx := 0, edx := 4, sty := 0, edy := 4 } ∧
    resolveAddress ADDRESS_MODE_CLAMP_TO_EDGE uvDecl ⟨1, 1⟩ = some ⟨1, 1⟩ ∧
    sampleFromUVLevel
        (mkSampler MIPMAP_MODE_NO_MIPMAP ADDRESS_MODE_CLAMP_TO_EDGE FILTER_MODE_POINT)
        flatTex uvDecl 0 ⟨1, 1⟩ 0 0 = { value := flatTex.at 4 4, fetches := [(4, 4)] } ∧
    ¬ (levelRect flatTex 0 0).Contains 4 4 ∧
    (sampleFromUVLevel
        (mkSampler MIPMAP_MODE_NO_MIPMAP ADDRESS_MODE_CLAMP_TO_EDGE FILTER_MODE_LINEAR)
        flatTex uvDecl 0 ⟨1, 1⟩ 0 0).fetches = [(3, 3), (3, 3), (3, 3), (3, 3)] := by
  have c1 : clamp 1 0 1 = 1 := by norm_num [clamp]
  have hres : resolveAddress ADDRESS_MODE_CLAMP_TO_EDGE uvDecl ⟨1, 1⟩ = some ⟨1, 1⟩ := by
    simp only [resolveAddress, c1]
  have hr : levelRect flatTex 0 0 = { stx := 0, edx := 4, sty := 0, edy := 4 } := by
    simp [levelRect, flatTex]
  have hp : ((0 : ℤ) : ℚ) + 1 * ((4 - 0 : ℤ) : ℚ) = ((4 : ℤ) : ℚ) := by norm_num
  refine ⟨hr, hres, ?_, ?_, ?_⟩
  · rw [sampleFromUVLevel_of_resolve _ flatTex uvDecl 0 _ _ 0 0 hres, hr,
      filterAt_point _ flatTex 0 ⟨1, 1⟩ { stx := 0, edx := 4, sty := 0, edy := 4 } rfl]
    simp only [uvInTex, hp, toInt_intCast]
  · rw [hr]
    simp [Rect.Contains]
  · rw [sampleFromUVLevel_of_resolve _ flatTex uvDecl 0 _ _ 0 0 hres, hr,
      filterAt_linear _ flatTex 0 ⟨1, 1⟩ { stx := 0, edx := 4, sty := 0, edy := 4 }
        1 1 (4 - 1) (4 - 1) (4 - 1) (4 - 1) rfl (linearAxis_one _ _ _ _) (linearAxis_one _ _ _ _)]
    norm_num

/-! ## C7: blending under `MIPMAP_MODE_LINEAR`, with 32-bit `int` -/

theorem floor_le_roundHalfEven (q : ℚ) : ⌊q⌋ ≤ roundHalfEven q := by
  unfold roundHalfEven
  split_ifs <;> omega

theorem roundHalfEven_le_floor_succ (q : ℚ) : roundHalfEven q ≤ ⌊q⌋ + 1 := by
  unfold roundHalfEven
  split_ifs <;> omega

theorem roundHalfEven_intCast (n : ℤ) : roundHalfEven (n : ℚ) = n := by
  unfold roundHalfEven
  rw [Int.fract_intCast, if_pos (by norm_num), Int.floor_intCast]

theorem roundHalfEven_of_lt_half {q : ℚ} (n : ℤ) (h1 : (n : ℚ) ≤ q) (h2 : q < (n : ℚ) + 1 / 2) :
    roundHalfEven q = n := by
  have hfl : ⌊q⌋ = n := by
    rw [Int.floor_eq_iff]
    constructor <;> linarith
  have hfr : Int.fract q < 1 / 2 := by
    rw [Int.fract, hfl]; linarith
  unfold roundHalfEven
  rw [if_pos hfr, hfl]

theorem roundHalfEven_of_gt_half {q : ℚ} (n : ℤ) (h1 : (n : ℚ) + 1 / 2 < q) (h2 : q < (n : ℚ) + 1) :
    roundHalfEven q = n + 1 := by
  have hfl : ⌊q⌋ = n := by
    rw [Int.floor_eq_iff]
    constructor <;> linarith
  have hfr : 1 / 2 < Int.fract q := by
    rw [Int.fract, hfl]; linarith
  unfold roundHalfEven
  rw [if_neg (not_lt.mpr hfr.le), if_pos hfr, hfl]

/-- The exponent used by `roundF32` on a given binade. -/
theorem log_of_binade {x : ℚ} (e : ℤ) (h1 : (2 : ℚ) ^ e ≤ |x|) (h2 : |x| < (2 : ℚ) ^ (e + 1)) :
    Int.log 2 |x| = e := by
  have hpos : 0 < |x| := lt_of_lt_of_le (zpow_pos (by norm_num) e) h1
  have a : e ≤ Int.log 2 |x| :=
    (Int.zpow_le_iff_le_log (by norm_num) hpos).mp (by exact_mod_cast h1)
  have b : Int.log 2 |x| < e + 1 :=
    (Int.lt_zpow_iff_log_lt (by norm_num) hpos).mp (by exact_mod_cast h2)
  omega

/-- Evaluation of `roundF32` on a given binade. -/
theorem roundF32_of_binade {x : ℚ} (e n : ℤ) (h1 : (2 : ℚ) ^ e ≤ |x|)
    (h2 : |x| < (2 : ℚ) ^ (e + 1)) (h3 : roundHalfEven (x / 2 ^ (e - 23)) = n) :
    roundF32 x = (n : ℚ) * 2 ^ (e - 23) := by
  have hpos : 0 < |x| := lt_of_lt_of_le (zpow_pos (by norm_num) e) h1
  have hx : x ≠ 0 := abs_pos.mp hpos
  unfold roundF32
  rw [if_neg hx, log_of_binade e h1 h2, h3]

theorem roundF32_zero : roundF32 0 = 0 := by
  simp [roundF32]

theorem roundF32_nonneg {x : ℚ} (h : 0 ≤ x) : 0 ≤ roundF32 x := by
  unfold roundF32
  split_ifs with h0
  · exact le_refl 0
  · have hu : (0 : ℚ) < 2 ^ (Int.log 2 |x| - 23) := zpow_pos (by norm_num) _
    have hq : 0 ≤ x / 2 ^ (Int.log 2 |x| - 23) := div_nonneg h hu.le
    have hr : (0 : ℤ) ≤ roundHalfEven (x / 2 ^ (Int.log 2 |x| - 23)) :=
      le_trans (Int.floor_nonneg.mpr hq) (floor_le_roundHalfEven _)
    exact mul_nonneg (by exact_mod_cast hr) hu.le

theorem roundF32_pos {x : ℚ} (h : 0 < x) : 0 < roundF32 x := by
  have hx : x ≠ 0 := ne_of_gt h
  have habs : |x| = x := abs_of_pos h
  unfold roundF32
  rw [if_neg hx, habs]
  have hu : (0 : ℚ) < 2 ^ (Int.log 2 x - 23) := zpow_pos (by norm_num) _
  have hle : (2 : ℚ) ^ Int.log 2 x ≤ x := by
    have h2 : ((2 : ℕ) : ℚ) ^ Int.log 2 x ≤ x := Int.zpow_log_le_self (by norm_num) h
    exact_mod_cast h2
  have hq : (1 : ℚ) ≤ x / 2 ^ (Int.log 2 x - 23) := by
    rw [le_div_iff₀ hu, one_mul]
    refine le_trans ?_ hle
    exact zpow_le_zpow_right₀ (by norm_num) (by omega)
  have hr : (1 : ℤ) ≤ roundHalfEven (x / 2 ^ (Int.log 2 x - 23)) :=
    le_trans (Int.le_floor.mpr (by exact_mod_cast hq)) (floor_le_roundHalfEven _)
  have : (1 : ℚ) ≤ (roundHalfEven (x / 2 ^ (Int.log 2 x - 23)) : ℚ) := by exact_mod_cast hr
  positivity

theorem roundF32_one : roundF32 1 = 1 := by
  rw [roundF32_of_binade 0 8388608 (by norm_num) (by norm_num)
    (by
      have e : (1 : ℚ) / 2 ^ ((0 : ℤ) - 23) = ((8388608 : ℤ) : ℚ) := by norm_num
      rw [e, roundHalfEven_intCast])]
  norm_num

theorem roundF32_le_one {x : ℚ} (h0 : 0 < x) (h1 : x ≤ 1) : roundF32 x ≤ 1 := by
  rcases h1.eq_or_lt with rfl | hlt
  · rw [roundF32_one]
  · have hx : x ≠ 0 := ne_of_gt h0
    have habs : |x| = x := abs_of_pos h0
    have hlog : Int.log 2 x < 0 :=
      (Int.lt_zpow_iff_log_lt (by norm_num) h0).mp (by simpa using hlt)
    have hup : x < (2 : ℚ) ^ (Int.log 2 x + 1) := by
      have h2 : x < ((2 : ℕ) : ℚ) ^ (Int.log 2 x + 1) := Int.lt_zpow_succ_log_self (by norm_num) x
      exact_mod_cast h2
    have hu : (0 : ℚ) < 2 ^ (Int.log 2 x - 23) := zpow_pos (by norm_num) _
    have hsplit : (2 : ℚ) ^ (Int.log 2 x + 1) = 16777216 * 2 ^ (Int.log 2 x - 23) := by
      rw [show Int.log 2 x + 1 = 24 + (Int.log 2 x - 23) by ring, zpow_add₀ (by norm_num)]
      norm_num
    have hq : x / 2 ^ (Int.log 2 x - 23) < 16777216 := by
      rw [div_lt_iff₀ hu, ← hsplit]
      exact hup
    have hfl : ⌊x / 2 ^ (Int.log 2 x - 23)⌋ < 16777216 := Int.floor_lt.mpr (by exact_mod_cast hq)
    have hr : roundHalfEven (x / 2 ^ (Int.log 2 x - 23)) ≤ 16777216 := by
      have := roundHalfEven_le_floor_succ (x / 2 ^ (Int.log 2 x - 23))
      omega
    unfold roundF32
    rw [if_neg hx, habs]
    have hr2 : (roundHalfEven (x / 2 ^ (Int.log 2 x - 23)) : ℚ) ≤ 16777216 := by exact_mod_cast hr
    calc (roundHalfEven (x / 2 ^ (Int.log 2 x - 23)) : ℚ) * 2 ^ (Int.log 2 x - 23)
        ≤ 16777216 * 2 ^ (Int.log 2 x - 23) := mul_le_mul_of_nonneg_right hr2 hu.le
      _ = (2 : ℚ) ^ (Int.log 2 x + 1) := hsplit.symm
      _ ≤ (2 : ℚ) ^ (0 : ℤ) := zpow_le_zpow_right₀ (by norm_num) (by omega)
      _ = 1 := by norm_num

/-- A value `m * 2^(e - 23)` with a 24-bit significand `m` is a binary32 value: rounding leaves
it unchanged. -/
theorem roundF32_fixed {x : ℚ} (e m : ℤ) (h1 : 8388608 ≤ |m|) (h2 : |m| < 16777216)
    (hx : x = (m : ℚ) * 2 ^ (e - 23)) : roundF32 x = x := by
  have hu : (0 : ℚ) < 2 ^ (e - 23) := zpow_pos (by norm_num) _
  have habs : |x| = (|m| : ℚ) * 2 ^ (e - 23) := by
    rw [hx, abs_mul, abs_of_pos hu]
  have he : (2 : ℚ) ^ e = 8388608 * 2 ^ (e - 23) := by
    rw [show e = 23 + (e - 23) by ring, zpow_add₀ (by norm_num)]
    norm_num
  have he1 : (2 : ℚ) ^ (e + 1) = 16777216 * 2 ^ (e - 23) := by
    rw [show e + 1 = 24 + (e - 23) by ring, zpow_add₀ (by norm_num)]
    norm_num
  have c1 : (8388608 : ℚ) ≤ (|m| : ℚ) := by exact_mod_cast h1
  have c2 : (|m| : ℚ) < 16777216 := by exact_mod_cast h2
  have q : x / 2 ^ (e - 23) = (m : ℚ) := by
    rw [hx, mul_div_assoc, div_self (ne_of_gt hu), mul_one]
  rw [roundF32_of_binade e m
    (by rw [habs, he]; exact mul_le_mul_of_nonneg_right c1 hu.le)
    (by rw [habs, he1]; exact mul_lt_mul_of_pos_right c2 hu)
    (by rw [q, roundHalfEven_intCast]), ← hx]

theorem roundF32_half : roundF32 (1 / 2) = 1 / 2 :=
  roundF32_fixed (-1) 8388608 (by norm_num) (by norm_num) (by norm_num)

theorem roundF32_two : roundF32 2 = 2 :=
  roundF32_fixed 1 8388608 (by norm_num) (by norm_num) (by norm_num)

theorem roundF32_four : roundF32 4 = 4 :=
  roundF32_fixed 2 8388608 (by norm_num) (by norm_num) (by norm_num)

/-- The largest binary32 value below 1, doubled, is a binary32 value. -/
theorem roundF32_below_two : roundF32 (16777215 / 8388608) = 16777215 / 8388608 :=
  roundF32_fixed 0 16777215 (by norm_num) (by norm_num) (by norm_num)

/-- The sum `4 + (2 - 2^-23)` lies between the binary32 values `6 - 2^-21` and `6`, nearer
to 6. -/
theorem roundF32_below_six : roundF32 (50331647 / 8388608) = 6 := by
  rw [roundF32_of_binade 2 12582912 (by norm_num [abs_of_pos]) (by norm_num [abs_of_pos])
    (by
      have h : roundHalfEven (50331647 / 8388608 / 2 ^ ((2 : ℤ) - 23)) = 12582911 + 1 :=
        roundHalfEven_of_gt_half 12582911 (by norm_num) (by norm_num)
      simpa using h)]
  norm_num

/-- The `FILTER_MODE_LINEAR` blend of the binary32 filter stage in terms of the two per-axis
selections. -/
theorem filterAtF32_linear {T : Type} [AddCommMonoid T] [Module ℚ T] (s : Sampler2D T)
    (tex : Texture2D T) (resultDecl : T) (uv : Vec2f) (r : Rect) (ku kv : ℚ) (x0 x1 y0 y1 : ℤ)
    (hf : s.filterMode = FILTER_MODE_LINEAR)
    (hu : linearAxisF32 s.addressMode uv.u (uvInTexF32 r uv).u r.stx r.edx = (ku, x0, x1))
    (hv : linearAxisF32 s.addressMode uv.v (uvInTexF32 r uv).v r.sty r.edy = (kv, y0, y1)) :
    filterAtF32 s tex resultDecl uv r =
      { value := roundF32 (ku * kv) • tex.at x0 y0 +
          roundF32 (roundF32 (1 - ku) * kv) • tex.at x1 y0 +
          roundF32 (ku * roundF32 (1 - kv)) • tex.at x0 y1 +
          roundF32 (roundF32 (1 - ku) * roundF32 (1 - kv)) • tex.at x1 y1,
        fetches := [(x0, y0), (x1, y0), (x0, y1), (x1, y1)] } := by
  simp only [filterAtF32, hf, hu, hv, zero_add]

theorem toInt32_of_nonneg_lt {x : ℚ} (h0 : 0 ≤ x) (h1 : x < 2147483648) : toInt32 x = ⌊x⌋ := by
  have a : (0 : ℤ) ≤ ⌊x⌋ := Int.floor_nonneg.mpr h0
  have b : ⌊x⌋ < 2147483648 := Int.floor_lt.mpr (by exact_mod_cast h1)
  unfold toInt32
  rw [toInt_of_nonneg h0, if_pos ⟨by omega, b⟩]

theorem toInt32_intCast (n : ℤ) (h0 : -2147483648 ≤ n) (h1 : n < 2147483648) :
    toInt32 (n : ℚ) = n := by
  unfold toInt32
  rw [toInt_intCast, if_pos ⟨h0, h1⟩]

/-- An integer pixel coordinate takes the left-half branch with factor one half, also in
binary32. -/
theorem linearAxisF32_int (mode : AddressMode) (c : ℚ) (st ed n : ℤ) (hc : c ≠ 1)
    (h0 : -2147483648 ≤ n) (h1 : n < 2147483648) :
    linearAxisF32 mode c (n : ℚ) st ed =
      (1 / 2, if mode = ADDRESS_MODE_REPEAT ∧ n = st then ed - 1 else max (n - 1) st, n) := by
  have hh : (0 : ℚ) < 1 / 2 := by norm_num
  simp only [linearAxisF32, if_neg hc, fmod_one_intCast, toInt32_intCast n h0 h1, sub_zero,
    if_pos hh, roundF32_half]

/-- The pixel position computed in binary32 for `uv = (1 - 2^-24, 0)` on the rectangle
`(4, 6, 4, 6)`. -/
theorem uvInTexF32_below_one :
    uvInTexF32 { stx := 4, edx := 6, sty := 4, edy := 6 } ⟨16777215 / 16777216, 0⟩ = ⟨6, 4⟩ := by
  simp only [uvInTexF32]
  norm_num [roundF32_two, roundF32_four, roundF32_zero, roundF32_below_two, roundF32_below_six]

theorem levelRect_pyramid_one :
    levelRect pyramidTex 1 1 = { stx := 4, edx := 6, sty := 4, edy := 6 } := by
  simp [levelRect, pyramidTex, shl1]

/-! ## C19: the fetches of `FILTER_MODE_LINEAR` just below `uv = 1` -/

/-- C19, the code at the failing input.  On `pyramidTex` (8x8 storage, `levelCount = 2`) the
level-1 rectangle is `(4, 6, 4, 6)`.  For `uv = (1 - 2^-24, 0)`, the largest binary32 value
below 1 on the u axis, the code computes `uvInTex.u = 4 + u * 2` in binary32, which rounds to
exactly `6.0`; the guard `uv.u == 1.0f` does not fire, `fmodf(6, 1) = 0 < 0.5`, and
`x1 = int(6.0) = 6 = edx`: the fetches are `(5, 4), (6, 4), (5, 4), (6, 4)`, and `x1 = 6`
exceeds `edx - 1 = 5`. -/
theorem linear_fetch_leaves_rect_below_one :
    levelRect pyramidTex 1 1 = { stx := 4, edx := 6, sty := 4, edy := 6 } ∧
    ((0 : ℚ) ≤ 16777215 / 16777216 ∧ (16777215 / 16777216 : ℚ) < 1) ∧
    uvInTexF32 (levelRect pyramidTex 1 1) ⟨16777215 / 16777216, 0⟩ = ⟨6, 4⟩ ∧
    (filterAtF32 (mkSampler MIPMAP_MODE_NO_MIPMAP ADDRESS_MODE_CLAMP_TO_EDGE FILTER_MODE_LINEAR)
        pyramidTex 0 ⟨16777215 / 16777216, 0⟩ (levelRect pyramidTex 1 1)).fetches =
      [(5, 4), (6, 4), (5, 4), (6, 4)] ∧
    ¬ ((6 : ℤ) ≤ (levelRect pyramidTex 1 1).edx - 1) := by
  have hp : uvInTexF32 (levelRect pyramidTex 1 1) ⟨16777215 / 16777216, 0⟩ = ⟨6, 4⟩ := by
    rw [levelRect_pyramid_one]
    exact uvInTexF32_below_one
  have ax : linearAxisF32 ADDRESS_MODE_CLAMP_TO_EDGE (16777215 / 16777216) ((6 : ℤ) : ℚ) 4 6 =
      (1 / 2, 5, 6) := by
    rw [linearAxisF32_int _ _ _ _ 6 (by norm_num) (by norm_num) (by norm_num)]
    norm_num
  have ay : linearAxisF32 ADDRESS_MODE_CLAMP_TO_EDGE 0 ((4 : ℤ) : ℚ) 4 6 = (1 / 2, 4, 4) := by
    rw [linearAxisF32_int _ _ _ _ 4 (by norm_num) (by norm_num) (by norm_num)]
    simp
  refine ⟨levelRect_pyramid_one, ⟨by norm_num, by norm_num⟩, hp, ?_, ?_⟩
  · rw [filterAtF32_linear _ pyramidTex 0 ⟨16777215 / 16777216, 0⟩ (levelRect pyramidTex 1 1)
      (1 / 2) (1 / 2) 5 6 4 4 rfl
      (by
        rw [hp, levelRect_pyramid_one]
        simpa [mkSampler] using ax)
      (by
        rw [hp, levelRect_pyramid_one]
        simpa [mkSampler] using ay)]
  · rw [levelRect_pyramid_one]
    norm_num

/-! ## C12: `FILTER_MODE_POINT` in binary32 -/

theorem roundF32_neg_four : roundF32 (-4) = -4 :=
  roundF32_fixed 2 (-8388608) (by norm_num) (by norm_num) (by norm_num)

/-- For a normalized coordinate and bounds `0 ≤ st ≤ ed` the position computed in binary32 is
non-negative. -/
theorem pixel_coord_F32_nonneg {c : ℚ} {st ed : ℤ} (h0 : 0 ≤ c) (hs : 0 ≤ st) (hse : st ≤ ed) :
    0 ≤ roundF32 (roundF32 (st : ℚ) + roundF32 (c * roundF32 ((ed - st : ℤ) : ℚ))) := by
  have h1 : (0 : ℚ) ≤ roundF32 (st : ℚ) := roundF32_nonneg (by exact_mod_cast hs)
  have h2 : (0 : ℚ) ≤ roundF32 ((ed - st : ℤ) : ℚ) :=
    roundF32_nonneg (by exact_mod_cast sub_nonneg.mpr hse)
  have h3 : (0 : ℚ) ≤ roundF32 (c * roundF32 ((ed - st : ℤ) : ℚ)) :=
    roundF32_nonneg (mul_nonneg h0 h2)
  exact roundF32_nonneg (add_nonneg h1 h3)

theorem roundHalfEven_of_tie_even {q : ℚ} (n : ℤ) (hq : q = (n : ℚ) + 1 / 2) (hn : n % 2 = 0) :
    roundHalfEven q = n := by
  have hfl : ⌊q⌋ = n := by
    rw [Int.floor_eq_iff]
    constructor <;> linarith
  have hfr : Int.fract q = 1 / 2 := by
    rw [Int.fract, hfl, hq]; ring
  unfold roundHalfEven
  rw [hfr, if_neg (lt_irrefl _), if_neg (lt_irrefl _), hfl, if_pos hn]

theorem linearAxisF32_left (mode : AddressMode) (c p : ℚ) (st ed : ℤ) (hc : c ≠ 1)
    (hp0 : 0 ≤ p) (hp1 : p < 2147483648) (hf : Int.fract p < 1 / 2) :
    linearAxisF32 mode c p st ed =
      (roundF32 (1 / 2 - Int.fract p),
        if mode = ADDRESS_MODE_REPEAT ∧ ⌊p⌋ = st then ed - 1 else max (⌊p⌋ - 1) st, ⌊p⌋) := by
  simp only [linearAxisF32, if_neg hc, fmod_one_of_nonneg hp0, toInt32_of_nonneg_lt hp0 hp1,
    if_pos hf]

theorem linearAxisF32_right (mode : AddressMode) (c p : ℚ) (st ed : ℤ) (hc : c ≠ 1)
    (hp0 : 0 ≤ p) (hp1 : p < 2147483648) (hf : 1 / 2 ≤ Int.fract p) :
    linearAxisF32 mode c p st ed =
      (roundF32 (3 / 2 - Int.fract p), ⌊p⌋,
        if mode = ADDRESS_MODE_REPEAT ∧ ⌊p⌋ = ed - 1 then st else min (⌊p⌋ + 1) (ed - 1)) := by
  simp only [linearAxisF32, if_neg hc, fmod_one_of_nonneg hp0, toInt32_of_nonneg_lt hp0 hp1,
    if_neg (not_lt.mpr hf)]

/-- For a non-negative pixel coordinate the factor selected on an axis, rounded to binary32,
lies in `(0, 1]`. -/
theorem linearAxisF32_factor_bounds (mode : AddressMode) (c p : ℚ) (st ed : ℤ) (hp : 0 ≤ p) :
    0 < (linearAxisF32 mode c p st ed).1 ∧ (linearAxisF32 mode c p st ed).1 ≤ 1 := by
  have g0 := Int.fract_nonneg p
  have g1 := Int.fract_lt_one p
  unfold linearAxisF32
  rw [fmod_one_of_nonneg hp]
  split_ifs with hc hf
  · norm_num
  · exact ⟨roundF32_pos (by linarith), roundF32_le_one (by linarith) (by linarith)⟩
  · exact ⟨roundF32_pos (by linarith), roundF32_le_one (by linarith) (by linarith)⟩

theorem levelRect_unit : levelRect unitTex 0 0 = { stx := 0, edx := 4, sty := 0, edy := 4 } := by
  simp [levelRect, unitTex]

theorem roundF32_pu : roundF32 (26625 / 16384) = 26625 / 16384 :=
  roundF32_fixed 0 13632000 (by norm_num) (by norm_num) (by norm_num)

theorem roundF32_pv : roundF32 (32789 / 16384) = 32789 / 16384 :=
  roundF32_fixed 1 8393984 (by norm_num) (by norm_num) (by norm_num)

theorem roundF32_ku : roundF32 (14335 / 16384) = 14335 / 16384 :=
  roundF32_fixed (-1) 14679040 (by norm_num) (by norm_num) (by norm_num)

theorem roundF32_kv : roundF32 (8171 / 16384) = 8171 / 16384 :=
  roundF32_fixed (-2) 16734208 (by norm_num) (by norm_num) (by norm_num)

theorem roundF32_one_sub_ku : roundF32 (2049 / 16384) = 2049 / 16384 :=
  roundF32_fixed (-3) 8392704 (by norm_num) (by norm_num) (by norm_num)

theorem roundF32_one_sub_kv : roundF32 (8213 / 16384) = 8213 / 16384 :=
  roundF32_fixed (-1) 8410112 (by norm_num) (by norm_num) (by norm_num)

/-- The product `ku * kv` of the example rounds up. -/
theorem roundF32_w00 : roundF32 (117131285 / 268435456) = 14641411 / 33554432 := by
  rw [roundF32_of_binade (-2) 14641411 (by norm_num [abs_of_pos]) (by norm_num [abs_of_pos])
    (by
      have h : roundHalfEven (117131285 / 268435456 / 2 ^ ((-2 : ℤ) - 23)) = 14641410 + 1 :=
        roundHalfEven_of_gt_half 14641410 (by norm_num) (by norm_num)
      simpa using h)]
  norm_num

/-- The product `(1 - ku) * kv` of the example is a binary32 value. -/
theorem roundF32_w10 : roundF32 (16742379 / 268435456) = 16742379 / 268435456 :=
  roundF32_fixed (-5) 16742379 (by norm_num) (by norm_num) (by norm_num)

/-- The product `ku * (1 - kv)` of the example rounds down. -/
theorem roundF32_w01 : roundF32 (117733355 / 268435456) = 14716669 / 33554432 := by
  rw [roundF32_of_binade (-2) 14716669 (by norm_num [abs_of_pos]) (by norm_num [abs_of_pos])
    (roundHalfEven_of_lt_half 14716669 (by norm_num) (by norm_num))]
  norm_num

/-- The product `(1 - ku) * (1 - kv)` of the example is a tie and rounds to the even
neighbour. -/
theorem roundF32_w11 : roundF32 (16828437 / 268435456) = 4207109 / 67108864 := by
  rw [roundF32_of_binade (-4) 8414218 (by norm_num [abs_of_pos]) (by norm_num [abs_of_pos])
    (roundHalfEven_of_tie_even 8414218 (by norm_num) (by norm_num))]
  norm_num

theorem roundF32_thirteen_quarters : roundF32 (13 / 4) = 13 / 4 :=
  roundF32_fixed 1 13631488 (by norm_num) (by norm_num) (by norm_num)

theorem roundF32_neg_three_quarters : roundF32 (-(3 / 4)) = -(3 / 4) :=
  roundF32_fixed (-1) (-12582912) (by norm_num) (by norm_num) (by norm_num)

theorem roundF32_five_quarters : roundF32 (5 / 4) = 5 / 4 :=
  roundF32_fixed 0 10485760 (by norm_num) (by norm_num) (by norm_num)

/-- The pixel position computed in binary32 for `uv = (26625/65536, 32789/65536)` on the
rectangle `(0, 4, 0, 4)`. -/
theorem uvInTexF32_example :
    uvInTexF32 { stx := 0, edx := 4, sty := 0, edy := 4 } ⟨26625 / 65536, 32789 / 65536⟩ =
      ⟨26625 / 16384, 32789 / 16384⟩ := by
  simp only [uvInTexF32]
  norm_num [roundF32_four, roundF32_zero, roundF32_pu, roundF32_pv]

/-- The pixel position computed in binary32 for `uv = (13/16, 13/16)` on the rectangle
`(-4, 0, -4, 0)`. -/
theorem uvInTexF32_negative_weights :
    uvInTexF32 { stx := -4, edx := 0, sty := -4, edy := 0 } ⟨13 / 16, 13 / 16⟩ =
      ⟨-(3 / 4), -(3 / 4)⟩ := by
  simp only [uvInTexF32]
  norm_num [roundF32_four, roundF32_neg_four, roundF32_thirteen_quarters,
    roundF32_neg_three_quarters]

/-- The two per-axis selections of the example. -/
theorem linearAxisF32_example :
    linearAxisF32 ADDRESS_MODE_CLAMP_TO_EDGE (26625 / 65536) (26625 / 16384) 0 4 =
      (14335 / 16384, 1, 2) ∧
    linearAxisF32 ADDRESS_MODE_CLAMP_TO_EDGE (32789 / 65536) (32789 / 16384) 0 4 =
      (8171 / 16384, 1, 2) := by
  have fu : ⌊(26625 / 16384 : ℚ)⌋ = 1 := by norm_num [Int.floor_eq_iff]
  have fv : ⌊(32789 / 16384 : ℚ)⌋ = 2 := by norm_num [Int.floor_eq_iff]
  have gu : Int.fract (26625 / 16384 : ℚ) = 10241 / 16384 := by norm_num [Int.fract, fu]
  have gv : Int.fract (32789 / 16384 : ℚ) = 21 / 16384 := by norm_num [Int.fract, fv]
  constructor
  · rw [linearAxisF32_right _ _ _ _ _ (by norm_num) (by norm_num) (by norm_num)
      (by rw [gu]; norm_num), gu, fu]
    norm_num [roundF32_ku]
  · rw [linearAxisF32_left _ _ _ _ _ (by norm_num) (by norm_num) (by norm_num)
      (by rw [gv]; norm_num), gv, fv]
    norm_num [roundF32_kv]

theorem filterAtFloat_linear (s : Sampler2D ℚ) (tex : Texture2D ℚ) (resultDecl : ℚ)
    (uv : Vec2f) (r : Rect) (ku kv : ℚ) (x0 x1 y0 y1 : ℤ)
    (hf : s.filterMode = FILTER_MODE_LINEAR)
    (hu : linearAxisF32 s.addressMode uv.u (uvInTexF32 r uv).u r.stx r.edx = (ku, x0, x1))
    (hv : linearAxisF32 s.addressMode uv.v (uvInTexF32 r uv).v r.sty r.edy = (kv, y0, y1)) :
    filterAtFloat s tex resultDecl uv r =
      { value :=
          roundF32 (roundF32 (roundF32 (roundF32 (roundF32 (roundF32 (ku * kv) * tex.at x0 y0)) +
            roundF32 (roundF32 (roundF32 (1 - ku) * kv) * tex.at x1 y0)) +
            roundF32 (roundF32 (ku * roundF32 (1 - kv)) * tex.at x0 y1)) +
            roundF32 (roundF32 (roundF32 (1 - ku) * roundF32 (1 - kv)) * tex.at x1 y1)),
        fetches := [(x0, y0), (x1, y0), (x0, y1), (x1, y1)] } := by
  simp only [filterAtFloat, hf, hu, hv, zero_add]

theorem roundF32_r1 : roundF32 (14641411 / 33554432) = 14641411 / 33554432 :=
  roundF32_fixed (-2) 14641411 (by norm_num) (by norm_num) (by norm_num)

theorem roundF32_t01 : roundF32 (14716669 / 33554432) = 14716669 / 33554432 :=
  roundF32_fixed (-2) 14716669 (by norm_num) (by norm_num) (by norm_num)

theorem roundF32_t11 : roundF32 (4207109 / 67108864) = 4207109 / 67108864 :=
  roundF32_fixed (-4) 8414218 (by norm_num) (by norm_num) (by norm_num)

/-- The second partial sum of the example rounds down. -/
theorem roundF32_r2 : roundF32 (133873667 / 268435456) = 8171 / 16384 := by
  rw [roundF32_of_binade (-2) 16734208 (by norm_num [abs_of_pos]) (by norm_num [abs_of_pos])
    (roundHalfEven_of_lt_half 16734208 (by norm_num) (by norm_num))]
  norm_num

/-- The third partial sum of the example is a tie and rounds to the even neighbour. -/
theorem roundF32_r3 : roundF32 (31450877 / 33554432) = 7862719 / 8388608 := by
  rw [roundF32_of_binade (-1) 15725438 (by norm_num [abs_of_pos]) (by norm_num [abs_of_pos])
    (roundHalfEven_of_tie_even 15725438 (by norm_num) (by norm_num))]
  norm_num

/-- The last partial sum of the example rounds down to `1 - 2^-24`. -/
theorem roundF32_r4 : roundF32 (67108861 / 67108864) = 16777215 / 16777216 := by
  rw [roundF32_of_binade (-1) 16777215 (by norm_num [abs_of_pos]) (by norm_num [abs_of_pos])
    (roundHalfEven_of_lt_half 16777215 (by norm_num) (by norm_num))]
  norm_num

/-- The four binary32 weights of the example. -/
theorem weights_example :
    roundF32 ((14335 / 16384 : ℚ) * (8171 / 16384)) = 14641411 / 33554432 ∧
    roundF32 (roundF32 (1 - 14335 / 16384) * (8171 / 16384)) = 16742379 / 268435456 ∧
    roundF32 ((14335 / 16384 : ℚ) * roundF32 (1 - 8171 / 16384)) = 14716669 / 33554432 ∧
    roundF32 (roundF32 (1 - 14335 / 16384) * roundF32 (1 - 8171 / 16384)) =
      4207109 / 67108864 := by
  refine ⟨?_, ?_, ?_, ?_⟩
  · norm_num [roundF32_w00]
  · norm_num [roundF32_one_sub_ku, roundF32_w10]
  · norm_num [roundF32_one_sub_kv, roundF32_w01]
  · norm_num [roundF32_one_sub_ku, roundF32_one_sub_kv, roundF32_w11]

/-- C20, counterexample.  On the single-level 4x4 texture whose texels all hold 1 (level
rectangle `(0, 4, 0, 4)`), with `CLAMP_TO_EDGE`, `LINEAR` and
`uv = (26625/65536, 32789/65536)`, the code computes in binary32 `ku = 14335/16384` and
`kv = 8171/16384`, both in `(0, 1]`, and the four weights `14641411/2^25`, `16742379/2^28`,
`14716669/2^25`, `4207109/2^26`, whose sum is `1 - 2^-28`, not 1.  The constant level does not
sample to its constant: with exact texel arithmetic the result is `1 - 2^-28`, and with
`float` texels (every product and `+=` rounded) it is `1 - 2^-24`.  On a rectangle with a
negative start, `(-4, 0, -4, 0)` at `u = 13/16`, the factor is `5/4`, outside `(0, 1]`. -/
theorem linear_weights_sum_counterexample :
    (linearAxisF32 ADDRESS_MODE_CLAMP_TO_EDGE (26625 / 65536)
        (uvInTexF32 (levelRect unitTex 0 0) ⟨26625 / 65536, 32789 / 65536⟩).u 0 4 =
        (14335 / 16384, 1, 2) ∧
      linearAxisF32 ADDRESS_MODE_CLAMP_TO_EDGE (32789 / 65536)
        (uvInTexF32 (levelRect unitTex 0 0) ⟨26625 / 65536, 32789 / 65536⟩).v 0 4 =
        (8171 / 16384, 1, 2)) ∧
    (roundF32 ((14335 / 16384 : ℚ) * (8171 / 16384)) +
        roundF32 (roundF32 (1 - 14335 / 16384) * (8171 / 16384)) +
        roundF32 ((14335 / 16384 : ℚ) * roundF32 (1 - 8171 / 16384)) +
        roundF32 (roundF32 (1 - 14335 / 16384) * roundF32 (1 - 8171 / 16384)) =
        268435455 / 268435456 ∧
      (268435455 / 268435456 : ℚ) ≠ 1) ∧
    (filterAtF32 (mkSampler MIPMAP_MODE_NO_MIPMAP ADDRESS_MODE_CLAMP_TO_EDGE FILTER_MODE_LINEAR)
        unitTex 0 ⟨26625 / 65536, 32789 / 65536⟩ (levelRect unitTex 0 0) =
        { value := 268435455 / 268435456, fetches := [(1, 1), (2, 1), (1, 2), (2, 2)] } ∧
      filterAtFloat
        (mkSampler MIPMAP_MODE_NO_MIPMAP ADDRESS_MODE_CLAMP_TO_EDGE FILTER_MODE_LINEAR)
        unitTex 0 ⟨26625 / 65536, 32789 / 65536⟩ (levelRect unitTex 0 0) =
        { value := 16777215 / 16777216, fetches := [(1, 1), (2, 1), (1, 2), (2, 2)] } ∧
      (16777215 / 16777216 : ℚ) ≠ 1) ∧
    (linearAxisF32 ADDRESS_MODE_CLAMP_TO_EDGE (13 / 16)
        (uvInTexF32 { stx := -4, edx := 0, sty := -4, edy := 0 } ⟨13 / 16, 13 / 16⟩).u (-4) 0).1 =
      5 / 4 := by
  obtain ⟨w00, w10, w01, w11⟩ := weights_example
  obtain ⟨au, av⟩ := linearAxisF32_example
  have hu : linearAxisF32
      (mkSampler MIPMAP_MODE_NO_MIPMAP ADDRESS_MODE_CLAMP_TO_EDGE FILTER_MODE_LINEAR).addressMode
      (⟨26625 / 65536, 32789 / 65536⟩ : Vec2f).u
      (uvInTexF32 (levelRect unitTex 0 0) ⟨26625 / 65536, 32789 / 65536⟩).u
      (levelRect unitTex 0 0).stx (levelRect unitTex 0 0).edx = (14335 / 16384, 1, 2) := by
    rw [levelRect_unit, uvInTexF32_example]
    exact au
  have hv : linearAxisF32
      (mkSampler MIPMAP_MODE_NO_MIPMAP ADDRESS_MODE_CLAMP_TO_EDGE FILTER_MODE_LINEAR).addressMode
      (⟨26625 / 65536, 32789 / 65536⟩ : Vec2f).v
      (uvInTexF32 (levelRect unitTex 0 0) ⟨26625 / 65536, 32789 / 65536⟩).v
      (levelRect unitTex 0 0).sty (levelRect unitTex 0 0).edy = (8171 / 16384, 1, 2) := by
    rw [levelRect_unit, uvInTexF32_example]
    exact av
  refine ⟨⟨?_, ?_⟩, ⟨?_, by norm_num⟩, ⟨?_, ?_, by norm_num⟩, ?_⟩
  · rw [levelRect_unit, uvInTexF32_example]
    exact au
  · rw [levelRect_unit, uvInTexF32_example]
    exact av
  · rw [w00, w10, w01, w11]
    norm_num
  · rw [filterAtF32_linear _ _ _ _ _ _ _ _ _ _ _ rfl hu hv, w00, w10, w01, w11]
    simp only [unitTex, smul_eq_mul, mul_one]
    norm_num
  · rw [filterAtFloat_linear _ _ _ _ _ _ _ _ _ _ _ rfl hu hv, w00, w10, w01, w11]
    simp only [unitTex, mul_one]
    rw [roundF32_r1, roundF32_r1, roundF32_w10, roundF32_t01, roundF32_t11]
    norm_num [roundF32_r2, roundF32_r3, roundF32_r4]
  · rw [uvInTexF32_negative_weights]
    have fl : Int.fract (-(3 / 4) : ℚ) = 1 / 4 := by
      rw [Int.fract, show ⌊(-(3 / 4) : ℚ)⌋ = -1 by norm_num [Int.floor_eq_iff]]
      norm_num
    have hfm : fmod (-(3 / 4)) 1 = -(3 / 4) := by
      unfold fmod
      rw [show toInt (-(3 / 4) / 1) = 0 by norm_num [toInt, Int.ceil_eq_iff]]
      norm_num
    simp only [linearAxisF32, hfm]
    norm_num [roundF32_five_quarters]

/-- C20, amended.  With `FILTER_MODE_LINEAR`, for every address mode, every normalized `uv` in
`[0,1]^2` and every level rectangle inside the storage (`0 ≤ start ≤ end`), the per-axis weights
`ku` and `kv` the code computes in binary32 lie in `(0, 1]`, the four blend weights `ku*kv`,
`(1-ku)*kv`, `ku*(1-kv)`, `(1-ku)*(1-kv)`, each rounded to binary32, are all non-negative, and
the result is the sum of the four fetched texels with these weights. -/
theorem linear_weights_binary32 {T : Type} [AddCommMonoid T] [Module ℚ T] (s : Sampler2D T)
    (tex : Texture2D T) (resultDecl : T) (uv : Vec2f) (r : Rect)
    (hf : s.filterMode = FILTER_MODE_LINEAR)
    (hu : 0 ≤ uv.u ∧ uv.u ≤ 1) (hv : 0 ≤ uv.v ∧ uv.v ≤ 1)
    (hx : 0 ≤ r.stx ∧ r.stx ≤ r.edx) (hy : 0 ≤ r.sty ∧ r.sty ≤ r.edy) :
    ∃ (ku kv : ℚ) (x0 x1 y0 y1 : ℤ),
      linearAxisF32 s.addressMode uv.u (uvInTexF32 r uv).u r.stx r.edx = (ku, x0, x1) ∧
      linearAxisF32 s.addressMode uv.v (uvInTexF32 r uv).v r.sty r.edy = (kv, y0, y1) ∧
      (0 < ku ∧ ku ≤ 1) ∧ (0 < kv ∧ kv ≤ 1) ∧
      0 ≤ roundF32 (ku * kv) ∧ 0 ≤ roundF32 (roundF32 (1 - ku) * kv) ∧
      0 ≤ roundF32 (ku * roundF32 (1 - kv)) ∧
      0 ≤ roundF32 (roundF32 (1 - ku) * roundF32 (1 - kv)) ∧
      filterAtF32 s tex resultDecl uv r =
        { value := roundF32 (ku * kv) • tex.at x0 y0 +
            roundF32 (roundF32 (1 - ku) * kv) • tex.at x1 y0 +
            roundF32 (ku * roundF32 (1 - kv)) • tex.at x0 y1 +
            roundF32 (roundF32 (1 - ku) * roundF32 (1 - kv)) • tex.at x1 y1,
          fetches := [(x0, y0), (x1, y0), (x0, y1), (x1, y1)] } := by
  have hpu : 0 ≤ (uvInTexF32 r uv).u := pixel_coord_F32_nonneg hu.1 hx.1 hx.2
  have hpv : 0 ≤ (uvInTexF32 r uv).v := pixel_coord_F32_nonneg hv.1 hy.1 hy.2
  have bu := linearAxisF32_factor_bounds s.addressMode uv.u (uvInTexF32 r uv).u r.stx r.edx hpu
  have bv := linearAxisF32_factor_bounds s.addressMode uv.v (uvInTexF32 r uv).v r.sty r.edy hpv
  rcases hAu : linearAxisF32 s.addressMode uv.u (uvInTexF32 r uv).u r.stx r.edx with ⟨ku, x0, x1⟩
  rcases hAv : linearAxisF32 s.addressMode uv.v (uvInTexF32 r uv).v r.sty r.edy with ⟨kv, y0, y1⟩
  rw [hAu] at bu
  rw [hAv] at bv
  have cu : (0 : ℚ) ≤ roundF32 (1 - ku) := roundF32_nonneg (by linarith [bu.2])
  have cv : (0 : ℚ) ≤ roundF32 (1 - kv) := roundF32_nonneg (by linarith [bv.2])
  exact ⟨ku, kv, x0, x1, y0, y1, rfl, rfl, bu, bv,
    roundF32_nonneg (mul_nonneg bu.1.le bv.1.le),
    roundF32_nonneg (mul_nonneg cu bv.1.le),
    roundF32_nonneg (mul_nonneg bu.1.le cv),
    roundF32_nonneg (mul_nonneg cu cv),
    filterAtF32_linear s tex resultDecl uv r ku kv x0 x1 y0 y1 hf hAu hAv⟩

/-- The amended C20 at `uv = (26625/65536, 32789/65536)` on the 4x4 texture of ones. -/
theorem linear_weights_binary32_witness :
    ∃ (ku kv : ℚ) (x0 x1 y0 y1 : ℤ),
      linearAxisF32 ADDRESS_MODE_CLAMP_TO_EDGE (26625 / 65536)
        (uvInTexF32 { stx := 0, edx := 4, sty := 0, edy := 4 } ⟨26625 / 65536, 32789 / 65536⟩).u
        0 4 = (ku, x0, x1) ∧
      linearAxisF32 ADDRESS_MODE_CLAMP_TO_EDGE (32789 / 65536)
        (uvInTexF32 { stx := 0, edx := 4, sty := 0, edy := 4 } ⟨26625 / 65536, 32789 / 65536⟩).v
        0 4 = (kv, y0, y1) ∧
      (0 < ku ∧ ku ≤ 1) ∧ (0 < kv ∧ kv ≤ 1) ∧
      0 ≤ roundF32 (ku * kv) ∧ 0 ≤ roundF32 (roundF32 (1 - ku) * kv) ∧
      0 ≤ roundF32 (ku * roundF32 (1 - kv)) ∧
      0 ≤ roundF32 (roundF32 (1 - ku) * roundF32 (1 - kv)) ∧
      filterAtF32 (mkSampler MIPMAP_MODE_NO_MIPMAP ADDRESS_MODE_CLAMP_TO_EDGE FILTER_MODE_LINEAR)
        unitTex 0 ⟨26625 / 65536, 32789 / 65536⟩ { stx := 0, edx := 4, sty := 0, edy := 4 } =
        { value := roundF32 (ku * kv) • unitTex.at x0 y0 +
            roundF32 (roundF32 (1 - ku) * kv) • unitTex.at x1 y0 +
            roundF32 (ku * roundF32 (1 - kv)) • unitTex.at x0 y1 +
            roundF32 (roundF32 (1 - ku) * roundF32 (1 - kv)) • unitTex.at x1 y1,
          fetches := [(x0, y0), (x1, y0), (x0, y1), (x1, y1)] } :=
  linear_weights_binary32
    (mkSampler MIPMAP_MODE_NO_MIPMAP ADDRESS_MODE_CLAMP_TO_EDGE FILTER_MODE_LINEAR) unitTex 0
    ⟨26625 / 65536, 32789 / 65536⟩ { stx := 0, edx := 4, sty := 0, edy := 4 } rfl
    ⟨by norm_num, by norm_num⟩ ⟨by norm_num, by norm_num⟩
    ⟨by norm_num, by norm_num⟩ ⟨by norm_num, by norm_num⟩

end MyRenderer
